import Mathlib

/-!
# sdtsdem2asc: a shallow embedding of `src/progs/sdtsdem2asc.cc`

The program reads an SDTS DEM through GDAL, writes the elevation grid as text and,
when an output base name was given, drives a chain of external tools.

Conventions of the embedding:

* `std::string` is `String`; the `std::string` members used by the source
  (`find`, `substr`, `erase`, `operator[]`, `empty`) are defined on the character list.
* C++ `int` is `Int`.  Signed overflow and out-of-range float-to-int conversion are
  undefined in C++, so the embedding coincides with the program wherever the program
  has a defined behaviour.  The one integer read from text, by `atoi`, is reduced to
  32 bits.
* `float`/`double` values (samples, the band minimum, geo-transform entries) are
  rationals: every finite floating-point number is one.
* What the process does to its environment is an ordered list of `Event`s together
  with the exit status.  What GDAL returns for a path and whether `fopen` succeeds on a
  name is the `World` parameter.
-/

namespace Sdtsdem2asc

/-! ## `std::string` and C library helpers -/

/-- Model of `std::string::find(char)`: index of the first occurrence, `none` for `npos`. -/
def find_char (c : Char) : List Char → Option Nat
  | [] => none
  | x :: xs => if x = c then some 0 else (find_char c xs).map (· + 1)

/-- Whether `pat` starts the list `s`. -/
def starts_with : List Char → List Char → Bool
  | [], _ => true
  | _ :: _, [] => false
  | p :: ps, x :: xs => p = x && starts_with ps xs

/-- Model of `s.find(pat) != string::npos` for a string pattern. -/
def has_substr (pat : List Char) : List Char → Bool
  | [] => starts_with pat []
  | x :: xs => starts_with pat (x :: xs) || has_substr pat xs

/-- Model of `arg.find(pat) != string::npos`. -/
def found (arg pat : String) : Bool := has_substr pat.data arg.data

/-- Model of `arg[0]`: the first character, the terminating NUL for an empty string. -/
def first_char (arg : String) : Char :=
  match arg.data with
  | [] => '\x00'
  | c :: _ => c

/-- Model of `isspace` in the C locale. -/
def isspace (c : Char) : Bool :=
  c = ' ' || c = '\t' || c = '\n' || c = '\x0b' || c = '\x0c' || c = '\r'

/-- Value of the leading decimal digits of `s`, continuing from `acc`. -/
def digits_value : Nat → List Char → Nat
  | acc, [] => acc
  | acc, c :: cs =>
    if c.isDigit then digits_value (acc * 10 + (c.toNat - '0'.toNat)) cs else acc

/-- Model of `strtol(s, NULL, 10)` on the characters of a C string, with a 64-bit `long`:
skip white space, read an optional sign, then the leading decimal digits; whatever
follows is ignored, no digits give 0, and a value out of range gives `LONG_MAX` or
`LONG_MIN`. -/
def atoi_chars (s : List Char) : Int :=
  match s.dropWhile isspace with
  | '-' :: r => -(min (digits_value 0 r) (2 ^ 63) : Nat)
  | '+' :: r => (min (digits_value 0 r) (2 ^ 63 - 1) : Nat)
  | r => (min (digits_value 0 r) (2 ^ 63 - 1) : Nat)

/-- Conversion of a `long` to the 32-bit `int` of the source: the value modulo `2^32`
in the range `-2^31 .. 2^31 - 1`. -/
def to_int32 (z : Int) : Int := (z + 2 ^ 31) % 2 ^ 32 - 2 ^ 31

/-- Model of `atoi(s.c_str())` stored in an `int` (source lines 122 and 570), as the C
libraries compute it: `(int) strtol(s, NULL, 10)`.  A number that does not fit 32 bits
wraps: `2147483648` gives `-2147483648` and `4294967296` gives `0`. -/
def atoi (s : String) : Int := to_int32 (atoi_chars s.data)

/-- Model of the `%d` conversion. -/
def fmt_d (n : Int) : String := toString n

/-- Model of `static_cast<int>(x)` for a floating-point `x`: the fractional part is
discarded. -/
def static_cast_int (x : ℚ) : Int := Int.tdiv x.num x.den

/-- Model of `floor(x)`: an integer-valued floating-point number. -/
def floor (x : ℚ) : ℚ := ((Rat.floor x : Int) : ℚ)

/-! ## Command line -/

/-- The variables the argument loop of `main` sets (`info` and `debug` are globals of the
source), with their initial values. -/
structure Opts where
  info : Bool := false
  debug : Bool := false
  chop : Bool := false
  chopel : Int := 1
  ifil : String := ""
  basename : String := ""
deriving DecidableEq, Repr

/-- The split of an argument at its first `'='` (source lines 95-108): the pair
`(arg, val)` after `val = arg.substr(idx+1); arg.erase(idx)`, or `(arg, "")`. -/
def split_arg (a : String) : String × String :=
  match find_char '=' a.data with
  | none => (a, "")
  | some idx => (String.mk (a.data.take idx), String.mk (a.data.drop (idx + 1)))

deriving instance DecidableEq for Except

/-- One iteration of the argument loop (source lines 95-137).  `Except.error msg` is
`exit(1)` after `msg` was printed to standard output. -/
def parse_arg (o : Opts) (a : String) : Except String Opts :=
  let arg := (split_arg a).1
  let val := (split_arg a).2
  if first_char arg = '-' then
    if found arg "-i" then .ok { o with info := true }
    else if found arg "-d" then .ok { o with debug := true }
    else if found arg "-b" then .ok { o with basename := val }
    else if found arg "-c" then
      if val ≠ "" then
        let chopel := atoi val
        if chopel < 1 then
          .error ("FATAL:  Chop elevation '" ++ fmt_d chopel ++ "' is less than 1.\n")
        else .ok { o with chop := true, chopel := chopel }
      else .ok { o with chop := true }
    else .ok o
  else if o.ifil = "" then .ok { o with ifil := arg }
  else .error ("ERROR:  Unknown arg '" ++ arg ++ "'...exiting.\n")

/-- The argument loop `for (int i = 1; i < argc; ++i)` over `argv[1..]`. -/
def parse_args : Opts → List String → Except String Opts
  | o, [] => .ok o
  | o, a :: rest =>
    match parse_arg o a with
    | .ok o1 => parse_args o1 rest
    | .error msg => .error msg

/-! ## The environment -/

/-- What the process does to its environment, in program order. -/
inductive Event where
  /-- Text written to standard output (`Printf`, `printf`). -/
  | out (text : String)
  /-- Text written to standard error. -/
  | err (text : String)
  /-- The call `GDALOpen(path, GA_ReadOnly)`. -/
  | gdal_open (path : String)
  /-- The call `GDALClose(dataset)`. -/
  | gdal_close
  /-- The call `fopen(name, "w")`: the file is created or truncated. -/
  | fopen (name : String)
  /-- Text written to the stream opened on `name`. -/
  | fwrite (name : String) (text : String)
  /-- The call `fclose` on the stream opened on `name`. -/
  | fclose (name : String)
  /-- The call `unlink(name)`. -/
  | unlink (name : String)
  /-- The call `system(cmd)`. -/
  | system (cmd : String)
deriving DecidableEq, Repr

/-- The `UNIT` node of the projection, as `OGRSpatialReference::GetAttrValue` returns it. -/
structure Projection where
  /-- The value `sp->GetAttrValue("UNIT", 0)`. -/
  unit_name : String
  /-- The value `sp->GetAttrValue("UNIT", 1)`. -/
  unit_value : String

/-- What the program reads from an opened dataset and its band 1.  The `*_text` fields are
the renderings of library data (floating-point `printf` conversions, GDAL names and
listings) that only the information mode prints. -/
structure Dataset where
  /-- Whether `GetGeoTransform` returned `CE_None`. -/
  geo_ok : Bool
  /-- The entry `adfGeoTransform[1]`, the w-e pixel resolution. -/
  pixel_width : ℚ
  /-- The entry `adfGeoTransform[5]`, the n-s pixel resolution. -/
  pixel_height : ℚ
  /-- The `Origin = ...` and `Pixel Size = ...` lines. -/
  geo_text : String
  /-- The projection reference, when `GetProjectionRef()` is not null. -/
  projection : Option Projection
  /-- The file list, metadata, driver, size and projection tree lines. -/
  listing_text : String
  /-- The value `dataset->GetRasterCount()`. -/
  nb : Int
  /-- Block size of band 1. -/
  nBlockXSize : Int
  /-- Block size of band 1. -/
  nBlockYSize : Int
  /-- The value `band->GetXSize()`. -/
  nx : Nat
  /-- The value `band->GetYSize()`. -/
  ny : Nat
  /-- The names of the band's data type and colour interpretation. -/
  type_name : String
  /-- The names of the band's data type and colour interpretation. -/
  color_name : String
  /-- The entry `adfMinMax[0]` after `GetMinimum` / `GDALComputeRasterMinMax`. -/
  adfMin : ℚ
  /-- The `Min=... Max=...`, overview and colour table lines. -/
  minmax_text : String
  /-- The sample `scanline[j]` after scanline `i` was read: `scanline i j`. -/
  scanline : Nat → Nat → ℚ

/-- The environment of a run: what `GDALOpen` finds at a path, what `system` returns
for a command (the source discards it), and whether `fopen(name, "w")` succeeds. -/
structure World where
  /-- The dataset `GDALOpen` returns, `none` for a null pointer. -/
  gdal : String → Option Dataset
  /-- The value `system(cmd)` returns. -/
  system_result : String → Int
  /-- Whether `fopen(name, "w")` returns a stream (`true`) or a null pointer. -/
  fopen_ok : String → Bool := fun _ => true

/-- A finished run: the events in order and the exit status. -/
structure Run where
  trace : List Event
  status : Int
deriving DecidableEq, Repr

/-- A stage of the program: either control reaches the next statement with a value, or
the stage called `exit(status)`. -/
inductive Stage (α : Type) where
  | next (trace : List Event) (value : α)
  | exit (trace : List Event) (status : Int)
deriving DecidableEq, Repr

/-! ## Constants of the source -/

/-- Global `az`. -/
def az : Int := 35
/-- Global `el`. -/
def el : Int := 25
/-- Global `pixsize`. -/
def pixsize : Int := 512 * 3

/-- The usage text printed when `argc < 2` (source lines 63-86). -/
def usage (argv0 : String) : String :=
  "Usage: " ++ argv0 ++ " <SDTS CATD file> [...options...]\n"
  ++ "\n"
  ++ "Without options, prints grid data in XY format to stdout and\n"
  ++ "  pixel data to stderr.\n"
  ++ "\n"
  ++ "Options:\n"
  ++ "\n"
  ++ "  --chop[=X]  Chop cell heights to a base level of X below the minimum\n"
  ++ "                height (default: 1).  Note that X must be >= 1.\n"
  ++ "  --name=X    Use 'X' as the base for output file names.  Outputs:\n"
  ++ "                X.asc\n"
  ++ "                X-reversed.asc\n"
  ++ "                X.dsp\n"
  ++ "                X.g (with X.r inside, az/el: " ++ fmt_d az ++ "/" ++ fmt_d el ++ ")\n"
  ++ "                X.pix (" ++ fmt_d pixsize ++ "x" ++ fmt_d pixsize ++ ")\n"
  ++ "                X-az35-el45.png\n"
  ++ "\n"
  ++ "  --info      Provides information about the input file and exits.\n"
  ++ "  --debug     For developer use: prints debug data to stdout\n"

/-! ## `get_dataset_info` -/

/-- The globals `scalex`, `scaley`, `scalez` once `get_dataset_info` returned. -/
structure Scales where
  scalex : Int
  scaley : Int
  scalez : Int
deriving DecidableEq, Repr

/-- The assignment `scalex = static_cast<int>(floor(adfGeoTransform[1]))`. -/
def scalex_of (ds : Dataset) : Int := static_cast_int (floor ds.pixel_width)

/-- The assignments `scaley = static_cast<int>(floor(adfGeoTransform[5])); scaley *= -1`. -/
def scaley_of (ds : Dataset) : Int := static_cast_int (floor ds.pixel_height) * -1

/-- The unit check of `get_dataset_info` (source lines 558-576): `none` when the check
passes, else the message printed before `exit(1)`. -/
def unit_check (ds : Dataset) : Option String :=
  match ds.projection with
  | none => none
  | some p =>
    if p.unit_name ≠ "Meter" then
      some ("FATAL:  Cell unit is '" ++ p.unit_name ++ "' instead of 'Meter'.\n")
    else
      let val := atoi p.unit_value
      if val ≠ 1 then
        some ("FATAL:  Cell z scale is '" ++ fmt_d val ++ "' instead of '1'.\n")
      else none

/-- The function `get_dataset_info` (source lines 515-668), run with the global `info`. -/
def get_dataset_info (info : Bool) (ds : Dataset) : Stage Scales :=
  let t_geo : List Event := if ds.geo_ok && info then [Event.out ds.geo_text] else []
  let scalex := scalex_of ds
  let scaley := scaley_of ds
  if !info && scalex ≠ scaley then
    Stage.exit
      (t_geo ++ [Event.out ("FATAL: cell scale x (" ++ fmt_d scalex
        ++ ") != cell scale y (" ++ fmt_d scaley ++ ")\n")]) 1
  else
    let scalez : Int := 1
    match unit_check ds with
    | some msg => Stage.exit (t_geo ++ [Event.out msg]) 1
    | none =>
      let t_list : List Event := if info then [Event.out ds.listing_text] else []
      Stage.next (t_geo ++ t_list) { scalex := scalex, scaley := scaley, scalez := scalez }

/-! ## The grid extractor -/

/-- The value of `p` after source lines 346-352: the sample converted to `int`, less
`static_cast<int>(floor(adfMinMax[0])) + chopel` when `chop` is set. -/
def adjusted (chop : Bool) (chopel : Int) (adfMin sample : ℚ) : Int :=
  let p := static_cast_int sample
  if chop then p - (static_cast_int (floor adfMin) + chopel) else p

/-- The statement `if (p < 0) p = 0;` of the non-debug branch (source lines 361-362). -/
def clamp (p : Int) : Int := if p < 0 then 0 else p

/-- The name `Stdout = basename + ".asc"`. -/
def asc_name (basename : String) : String := basename ++ ".asc"

/-- The name `Stderr = basename + ".info"`. -/
def info_name (basename : String) : String := basename ++ ".info"

/-- Write `text` to `fp1` when `dofils` is set, to standard output otherwise. -/
def emit (basename text : String) : Event :=
  if basename ≠ "" then Event.fwrite (asc_name basename) text else Event.out text

/-- The body of the inner loop (source lines 346-367) for sample `j` of scanline `i`. -/
def pixel_events (o : Opts) (ds : Dataset) (i j : Nat) : List Event :=
  let p := adjusted o.chop o.chopel ds.adfMin (ds.scanline i j)
  if o.debug then
    if p < 0 then []
    else [Event.out ("pixel[" ++ fmt_d j ++ "," ++ fmt_d i ++ "] = " ++ fmt_d p ++ "\n")]
  else
    [emit o.basename (" " ++ fmt_d (clamp p))]

/-- The body of the outer loop (source lines 331-374) for scanline `i`: the inner loop
`for (int j = 0; j < nx; ++j)`, then the newline. -/
def scanline_events (o : Opts) (ds : Dataset) (i : Nat) : List Event :=
  (List.range ds.nx).flatMap (pixel_events o ds i) ++ [emit o.basename "\n"]

/-- The loop `for (int i = 0; i < ny; ++i)` over all scanlines (source lines 330-375). -/
def grid_events (o : Opts) (ds : Dataset) : List Event :=
  (List.range ds.ny).flatMap (scanline_events o ds)

/-! ## The artifact pipeline -/

/-- The name `pixfil`, from `"%s-az%d-el%d.pix"`. -/
def pix_name (basename : String) : String :=
  basename ++ "-az" ++ fmt_d az ++ "-el" ++ fmt_d el ++ ".pix"

/-- The name `pngfil`, from `"%s-az%d-el%d.png"`. -/
def png_name (basename : String) : String :=
  basename ++ "-az" ++ fmt_d az ++ "-el" ++ fmt_d el ++ ".png"

/-- The vector `fils` at the end of `main` when `dofils` is set. -/
def fils (basename : String) : List String :=
  [asc_name basename, info_name basename, basename ++ "-reversed.asc", basename ++ ".dsp",
   basename ++ ".mged", basename ++ ".g", pix_name basename, png_name basename]

/-- The block `if (dofils) { ... }` of source lines 385-446, for a non-empty base name. -/
def pipeline_events (basename : String) (nx ny : Nat) (scalex : Int) : List Event :=
  let Stdout := asc_name basename
  let rfil := basename ++ "-reversed.asc"
  let dfil := basename ++ ".dsp"
  let mfil := basename ++ ".mged"
  let solid := basename ++ ".s"
  let region := basename ++ ".r"
  let gfil := basename ++ ".g"
  let pixfil := pix_name basename
  let pngfil := png_name basename
  [ Event.system ("tac " ++ Stdout ++ " > " ++ rfil),
    Event.system ("asc2dsp " ++ rfil ++ " " ++ dfil),
    Event.fopen mfil,
    Event.fwrite mfil
      ("units m\n"
        ++ "in " ++ solid ++ " dsp f " ++ dfil ++ " " ++ fmt_d nx ++ " " ++ fmt_d ny
        ++ " 0 ad " ++ fmt_d scalex ++ " 1\n"
        ++ "r " ++ region ++ " u " ++ solid ++ "\n"),
    Event.fclose mfil,
    Event.unlink gfil,
    Event.system ("mged -c " ++ gfil ++ " < '" ++ mfil ++ "'"),
    Event.unlink pixfil,
    Event.unlink pngfil,
    Event.system ("rt -R -o " ++ pixfil ++ " -s" ++ fmt_d pixsize ++ " -a" ++ fmt_d az
      ++ " -e" ++ fmt_d el ++ " " ++ gfil ++ " " ++ region ++ " 1>/dev/null 2>/dev/null"),
    Event.system ("pix-png -s" ++ fmt_d pixsize ++ " " ++ pixfil ++ " > " ++ pngfil) ]

/-- The closing report of source lines 447-454. -/
def report_events (basename : String) : List Event :=
  Event.out ("Normal end.  See file" ++ (if (fils basename).length > 1 then "s" else "")
    ++ ":\n")
  :: (fils basename).map (fun f => Event.out ("  " ++ f ++ "\n"))

/-! ## `main` -/

/-- The files opened at source lines 208-216 when a base name was given. -/
def open_outputs (basename : String) : List Event :=
  if basename ≠ "" then [Event.fopen (asc_name basename), Event.fopen (info_name basename)]
  else []

/-- The line `pixels: ... scale: ...` of source lines 227-234. -/
def pixels_line (ds : Dataset) (sc : Scales) : String :=
  "pixels: " ++ fmt_d ds.nx ++ " wide X " ++ fmt_d ds.ny ++ " high; scale: "
    ++ fmt_d sc.scalex ++ " m X " ++ fmt_d sc.scaley ++ " m X " ++ fmt_d sc.scalez ++ " m\n"

/-- What `main` prints about band 1 in information mode before the files are opened
(source lines 183-192). -/
def band_count_events (ds : Dataset) : List Event :=
  [Event.out ("There " ++ (if ds.nb > 1 then "are" else "is") ++ " " ++ fmt_d ds.nb
    ++ " raster band" ++ (if ds.nb > 1 then "s" else "") ++ " in this data set.\n"
    ++ "Fetching data for band 1:\n")]

/-- What `main` prints in information mode after the files are opened, up to the early
exit (source lines 218-225, 237-244, 252-262). -/
def band_info_events (ds : Dataset) : List Event :=
  [Event.out ("Block=" ++ fmt_d ds.nBlockXSize ++ "x" ++ fmt_d ds.nBlockYSize ++ " Type="
    ++ ds.type_name ++ ", ColorInterp=" ++ ds.color_name ++ "\n")]
  ++ (if (ds.nx : Int) ≠ ds.nBlockXSize then
        [Event.out ("WARNING: nx = " ++ fmt_d ds.nx ++ " but nBlockXSize = "
          ++ fmt_d ds.nBlockXSize ++ "\n")] else [])
  ++ (if (ds.ny : Int) ≠ ds.nBlockYSize then
        [Event.out ("WARNING: ny = " ++ fmt_d ds.ny ++ " but nBlockYSize = "
          ++ fmt_d ds.nBlockYSize ++ "\n")] else [])
  ++ [Event.out ds.minmax_text, Event.out "\nEarly exit for '--info' option.\n"]

/-- The source never tests the streams `fopen` returns before it writes to them (lines
214-215, 228, 364, 370, 402-405).  Writing through a null stream is undefined; the C
library dereferences the pointer and the process is killed.  This runs a block of events
in order up to the first write to a file whose `fopen` failed: the events carried out,
and whether the block ran to its end. -/
def until_null_write (w : World) : List Event → List Event × Bool
  | [] => ([], true)
  | Event.fwrite name text :: es =>
    if w.fopen_ok name then
      (Event.fwrite name text :: (until_null_write w es).1, (until_null_write w es).2)
    else ([], false)
  | e :: es => (e :: (until_null_write w es).1, (until_null_write w es).2)

/-- The exit status of a process killed by `SIGSEGV`, as the shell reports it. -/
def status_killed : Int := 139

/-- The statements `if (fp1) fclose(fp1); if (fp2) fclose(fp2);` (source lines 379-382). -/
def close_outputs (w : World) (basename : String) : List Event :=
  if basename ≠ "" then
    (if w.fopen_ok (asc_name basename) then [Event.fclose (asc_name basename)] else [])
    ++ (if w.fopen_ok (info_name basename) then [Event.fclose (info_name basename)] else [])
  else []

/-- What `main` does in normal mode after `get_dataset_info` returned (source lines
203-454), were every write to go through. -/
def normal_events (w : World) (o : Opts) (ds : Dataset) (sc : Scales) : List Event :=
  open_outputs o.basename
  ++ [if o.basename ≠ "" then Event.fwrite (info_name o.basename) (pixels_line ds sc)
      else Event.err (pixels_line ds sc)]
  ++ grid_events o ds
  ++ [Event.gdal_close]
  ++ close_outputs w o.basename
  ++ (if o.basename ≠ "" then
        pipeline_events o.basename ds.nx ds.ny sc.scalex ++ report_events o.basename
      else [])

/-- The part of `main` after `get_dataset_info` returned (source lines 176-513). -/
def extract (w : World) (o : Opts) (ds : Dataset) (sc : Scales) : Run :=
  if o.info then
    { trace := band_count_events ds ++ open_outputs o.basename ++ band_info_events ds,
      status := 0 }
  else
    { trace := (until_null_write w (normal_events w o ds sc)).1,
      status := if (until_null_write w (normal_events w o ds sc)).2 then 0
                else status_killed }

/-- The part of `main` after the argument loop (source lines 140-513). -/
def run_opts (w : World) (o : Opts) : Run :=
  if o.ifil = "" then
    { trace := [Event.out "ERROR:  No input file was entered...exiting.\n"], status := 1 }
  else
    match w.gdal o.ifil with
    | none =>
      { trace := [Event.gdal_open o.ifil,
          Event.out ("ERROR:  Input file '" ++ o.ifil ++ "' not found...exiting.\n")],
        status := 1 }
    | some ds =>
      match get_dataset_info o.info ds with
      | Stage.exit t status => { trace := Event.gdal_open o.ifil :: t, status := status }
      | Stage.next t sc =>
        let r := extract w o ds sc
        { trace := Event.gdal_open o.ifil :: (t ++ r.trace), status := r.status }

/-- The function `main` on the argument vector `argv` (`argv[0]` is the program name). -/
def main (w : World) (argv : List String) : Run :=
  match argv with
  | [] => { trace := [Event.out (usage "")], status := 1 }
  | [argv0] => { trace := [Event.out (usage argv0)], status := 1 }
  | _ :: a :: rest =>
    match parse_args {} (a :: rest) with
    | .error msg => { trace := [Event.out msg], status := 1 }
    | .ok o => run_opts w o

/-! ## Observations on a trace -/

/-- Everything written to standard output, in order. -/
def stdout_of : List Event → String
  | [] => ""
  | Event.out t :: es => t ++ stdout_of es
  | _ :: es => stdout_of es

/-- Everything written to the file `name`, in order. -/
def written_to (name : String) : List Event → String
  | [] => ""
  | Event.fwrite n t :: es => if n = name then t ++ written_to name es else written_to name es
  | _ :: es => written_to name es

/-- The commands passed to `system`, in order. -/
def commands_of : List Event → List String
  | [] => []
  | Event.system c :: es => c :: commands_of es
  | _ :: es => commands_of es

/-- The files opened with `fopen(name, "w")`, in order. -/
def opened_of : List Event → List String
  | [] => []
  | Event.fopen n :: es => n :: opened_of es
  | _ :: es => opened_of es

/-- The paths passed to `GDALOpen`, in order. -/
def gdal_opened_of : List Event → List String
  | [] => []
  | Event.gdal_open path :: es => path :: gdal_opened_of es
  | _ :: es => gdal_opened_of es

/-! ## Definitions that follow the words of the specification -/

/-- Truncation toward zero, as the specification words it: the floor of a non-negative
number, the ceiling of a negative one. -/
def spec_trunc (s : ℚ) : Int := if 0 ≤ s then ⌊s⌋ else ⌈s⌉

/-- Concatenation of a list of texts, in order. -/
def concat : List String → String
  | [] => ""
  | s :: rest => s ++ concat rest

/-- The adjusted value of a sample as the specification words it: the truncated sample,
less `floor(minimum) + offset` when chop is on. -/
def spec_adjusted (chop : Bool) (offset : Int) (minimum sample : ℚ) : Int :=
  spec_trunc sample - (if chop then ⌊minimum⌋ + offset else 0)

/-- Line `i` of the grid as the specification words it: for each sample of the scanline in
order, a space and the decimal form of its adjusted value, negative values replaced by
zero; then a newline. -/
def spec_row (o : Opts) (ds : Dataset) (i : Nat) : String :=
  concat ((List.range ds.nx).map (fun j =>
    " " ++ fmt_d (max 0 (spec_adjusted o.chop o.chopel ds.adfMin (ds.scanline i j)))))
    ++ "\n"

/-- The grid text as the specification words it: the lines of scanlines `0 .. ny-1`. -/
def spec_grid (o : Opts) (ds : Dataset) : String :=
  concat ((List.range ds.ny).map (spec_row o ds))

/-- The debug line of pixel (column `j`, row `i`) as the specification words it:
`pixel[j,i] = p` with the unclamped adjusted value `p` when `p` is not negative, nothing
otherwise. -/
def spec_debug_line (o : Opts) (ds : Dataset) (i j : Nat) : String :=
  if 0 ≤ spec_adjusted o.chop o.chopel ds.adfMin (ds.scanline i j) then
    "pixel[" ++ fmt_d j ++ "," ++ fmt_d i ++ "] = "
      ++ fmt_d (spec_adjusted o.chop o.chopel ds.adfMin (ds.scanline i j)) ++ "\n"
  else ""

/-- The debug lines of scanline `i`, in column order. -/
def spec_debug_row (o : Opts) (ds : Dataset) (i : Nat) : String :=
  concat ((List.range ds.nx).map (spec_debug_line o ds i))

/-- The closing report as text: the heading and one line per file name. -/
def spec_report (X : String) : String :=
  concat ("Normal end.  See files:\n" ::
    [X ++ ".asc", X ++ ".info", X ++ "-reversed.asc", X ++ ".dsp", X ++ ".mged", X ++ ".g",
     X ++ "-az35-el25.pix", X ++ "-az35-el25.png"].map (fun f => "  " ++ f ++ "\n"))

/-- The text `pat` occurs in the text `text`: some characters, then `pat`, then some
characters. -/
def spec_occurs (pat text : String) : Prop :=
  ∃ before after : List Char, text.data = before ++ pat.data ++ after

/-- What one iteration of the argument loop does with a flag whose text before the first
`=` is `arg` and whose text after it is `val`, as the specification words it: the result
`r` of the iteration sets `info` if `arg` contains `-i`; otherwise sets `debug` if it
contains `-d`; otherwise sets the base name to `val` if it contains `-b`; otherwise, if it
contains `-c`, enables chop, with the offset read from a non-empty `val` and the fatal
exit when that offset is below 1; otherwise changes nothing. -/
def spec_flag_effect (o : Opts) (arg val : String) (r : Except String Opts) : Prop :=
  (spec_occurs "-i" arg → r = .ok { o with info := true })
    ∧ (¬spec_occurs "-i" arg → spec_occurs "-d" arg → r = .ok { o with debug := true })
    ∧ (¬spec_occurs "-i" arg → ¬spec_occurs "-d" arg → spec_occurs "-b" arg →
        r = .ok { o with basename := val })
    ∧ (¬spec_occurs "-i" arg → ¬spec_occurs "-d" arg → ¬spec_occurs "-b" arg →
        spec_occurs "-c" arg →
        (val = "" → r = .ok { o with chop := true })
          ∧ (val ≠ "" → 1 ≤ atoi val → r = .ok { o with chop := true, chopel := atoi val })
          ∧ (val ≠ "" → atoi val < 1 →
              r = .error ("FATAL:  Chop elevation '" ++ fmt_d (atoi val)
                ++ "' is less than 1.\n")))
    ∧ (¬spec_occurs "-i" arg → ¬spec_occurs "-d" arg → ¬spec_occurs "-b" arg →
        ¬spec_occurs "-c" arg → r = .ok o)

/-- The three files the program writes to, `X.asc`, `X.info` and `X.mged`, all open. -/
def outputs_open (w : World) (X : String) : Prop :=
  w.fopen_ok (X ++ ".asc") = true ∧ w.fopen_ok (X ++ ".info") = true
    ∧ w.fopen_ok (X ++ ".mged") = true

/-- The value the usage text documents for `--chop=X`: heights are taken from a base
level `X` below the minimum `m`, that is, from `m - X`. -/
def documented_chop (X m : Int) (sample : ℚ) : Int := spec_trunc sample - (m - X)

/-! ## Example inputs -/

/-- The 2x2 raster of the specification's examples, with samples 10, 20, 5, 8 and square
30 m cells in metres. -/
def tiny_dataset : Dataset :=
  { geo_ok := true, pixel_width := 30, pixel_height := -30, geo_text := "",
    projection := some { unit_name := "Meter", unit_value := "1" },
    listing_text := "", nb := 1, nBlockXSize := 2, nBlockYSize := 2, nx := 2, ny := 2,
    type_name := "Int16", color_name := "Undefined", adfMin := 5, minmax_text := "",
    scanline := fun i j =>
      if i = 0 then (if j = 0 then 10 else 20) else (if j = 0 then 5 else 8) }

/-- An environment in which `in.ddf` is the tiny raster and no other path opens. -/
def tiny_world : World :=
  { gdal := fun path => if path = "in.ddf" then some tiny_dataset else none,
    system_result := fun _ => 0 }

/-- The tiny raster with square cells of 30.5 m: pixel width 61/2, pixel height -61/2. -/
def half_metre_dataset : Dataset :=
  { tiny_dataset with
    pixel_width := { num := 61, den := 2, den_nz := by decide, reduced := by decide },
    pixel_height := { num := -61, den := 2, den_nz := by decide, reduced := by decide } }

/-- The tiny raster with cells of 30 m by 10 m, in metres. -/
def oblong_dataset : Dataset := { tiny_dataset with pixel_height := -10 }

/-- The tiny raster with the unit of its projection named `Foot`. -/
def foot_dataset : Dataset :=
  { tiny_dataset with projection := some { unit_name := "Foot", unit_value := "1" } }

/-- An environment in which every path opens the dataset `ds`. -/
def world_of (ds : Dataset) : World :=
  { gdal := fun _ => some ds, system_result := fun _ => 0 }

/-! ## Lemmas on the helpers -/

theorem static_cast_int_eq (s : ℚ) : static_cast_int s = spec_trunc s := by
  unfold static_cast_int spec_trunc
  split_ifs with h
  · rw [Int.tdiv_eq_ediv (Rat.num_nonneg.mpr h) (by exact_mod_cast Nat.zero_le _)]
    exact (Rat.floor_def' s).symm
  · have hn : s.num < 0 := by
      by_contra hc
      exact h (Rat.num_nonneg.mp (not_lt.mp hc))
    have h1 : s.num.tdiv s.den = -((-s.num).tdiv s.den) := by
      rw [Int.neg_tdiv, neg_neg]
    rw [h1, Int.tdiv_eq_ediv (by omega) (by exact_mod_cast Nat.zero_le _)]
    have h2 : ⌈s⌉ = -⌊-s⌋ := by rw [Int.floor_neg, neg_neg]
    rw [h2]
    congr 1
    have := Rat.floor_def' (-s)
    simpa using this.symm

theorem static_cast_int_floor (m : ℚ) : static_cast_int (floor m) = ⌊m⌋ := by
  unfold static_cast_int floor
  simp
  rfl

theorem clamp_eq_max (p : Int) : clamp p = max 0 p := by
  unfold clamp
  split_ifs with h
  · exact (max_eq_left (le_of_lt h)).symm
  · exact (max_eq_right (not_lt.mp h)).symm

theorem adjusted_eq_spec (chop : Bool) (c : Int) (m s : ℚ) :
    adjusted chop c m s = spec_adjusted chop c m s := by
  unfold adjusted spec_adjusted
  cases chop
  · simp [static_cast_int_eq]
  · simp only [if_true]
    rw [static_cast_int_floor, static_cast_int_eq]

theorem stdout_of_append (a b : List Event) :
    stdout_of (a ++ b) = stdout_of a ++ stdout_of b := by
  induction a with
  | nil => simp [stdout_of]
  | cons e es ih => cases e <;> simp [stdout_of, ih, String.append_assoc]

theorem written_to_append (n : String) (a b : List Event) :
    written_to n (a ++ b) = written_to n a ++ written_to n b := by
  induction a with
  | nil => simp [written_to]
  | cons e es ih =>
    cases e <;> simp [written_to, ih]
    split_ifs <;> simp [String.append_assoc]

theorem commands_of_append (a b : List Event) :
    commands_of (a ++ b) = commands_of a ++ commands_of b := by
  induction a with
  | nil => simp [commands_of]
  | cons e es ih => cases e <;> simp [commands_of, ih]

theorem opened_of_append (a b : List Event) :
    opened_of (a ++ b) = opened_of a ++ opened_of b := by
  induction a with
  | nil => simp [opened_of]
  | cons e es ih => cases e <;> simp [opened_of, ih]

theorem stdout_of_flatMap {α : Type} (f : α → List Event) (g : α → String)
    (h : ∀ a, stdout_of (f a) = g a) (l : List α) :
    stdout_of (l.flatMap f) = concat (l.map g) := by
  induction l with
  | nil => simp [stdout_of, concat]
  | cons a l ih => simp [List.flatMap_cons, stdout_of_append, h, ih, concat]

theorem written_to_flatMap {α : Type} (n : String) (f : α → List Event) (g : α → String)
    (h : ∀ a, written_to n (f a) = g a) (l : List α) :
    written_to n (l.flatMap f) = concat (l.map g) := by
  induction l with
  | nil => simp [written_to, concat]
  | cons a l ih => simp [List.flatMap_cons, written_to_append, h, ih, concat]

theorem append_left_cancel_iff (b x y : String) : b ++ x = b ++ y ↔ x = y := by
  constructor
  · intro h
    have h2 := congrArg String.data h
    simp only [String.data_append] at h2
    exact String.ext (List.append_cancel_left h2)
  · intro h; rw [h]

theorem parse_args_nil_ifil (args : List String) (o : Opts)
    (h : parse_args {} args = .ok o) (hf : o.ifil ≠ "") : args ≠ [] := by
  intro hn
  subst hn
  simp [parse_args] at h
  subst h
  exact hf rfl

/-- When the argument loop ends normally with an input file, `main` continues with the
options it set. -/
theorem main_of_parse (w : World) (argv0 : String) (args : List String) (o : Opts)
    (h : parse_args {} args = .ok o) (hf : o.ifil ≠ "") :
    main w (argv0 :: args) = run_opts w o := by
  cases args with
  | nil => exact absurd rfl (parse_args_nil_ifil [] o h hf)
  | cons a rest => simp [main, h]

/-- In normal mode a successful `get_dataset_info` prints nothing. -/
theorem get_dataset_info_normal_trace (ds : Dataset) (t : List Event) (sc : Scales)
    (h : get_dataset_info false ds = Stage.next t sc) : t = [] := by
  unfold get_dataset_info at h
  simp only [Bool.and_false, Bool.false_eq_true, if_false, List.nil_append] at h
  split_ifs at h
  split at h
  · cases h
  · simp at h; exact h.1

theorem run_opts_loaded (w : World) (o : Opts) (ds : Dataset) (t : List Event) (sc : Scales)
    (hf : o.ifil ≠ "") (hopen : w.gdal o.ifil = some ds)
    (hload : get_dataset_info o.info ds = Stage.next t sc) :
    run_opts w o
      = { trace := Event.gdal_open o.ifil :: (t ++ (extract w o ds sc).trace),
          status := (extract w o ds sc).status } := by
  simp [run_opts, hf, hopen, hload]

theorem stdout_of_scanline (o : Opts) (ds : Dataset) (i : Nat)
    (hdebug : o.debug = false) (hb : o.basename = "") :
    stdout_of (scanline_events o ds i) = spec_row o ds i := by
  unfold scanline_events spec_row
  rw [stdout_of_append]
  rw [stdout_of_flatMap (pixel_events o ds i)
    (fun j => " " ++ fmt_d
      (max 0 (spec_adjusted o.chop o.chopel ds.adfMin (ds.scanline i j))))]
  · simp [emit, hb, stdout_of]
  · intro j
    simp [pixel_events, hdebug, emit, hb, stdout_of, clamp_eq_max, adjusted_eq_spec]

theorem written_to_scanline (o : Opts) (ds : Dataset) (i : Nat)
    (hdebug : o.debug = false) (hb : o.basename ≠ "") :
    written_to (asc_name o.basename) (scanline_events o ds i) = spec_row o ds i := by
  unfold scanline_events spec_row
  rw [written_to_append]
  rw [written_to_flatMap (asc_name o.basename) (pixel_events o ds i)
    (fun j => " " ++ fmt_d
      (max 0 (spec_adjusted o.chop o.chopel ds.adfMin (ds.scanline i j))))]
  · simp [emit, hb, written_to]
  · intro j
    simp [pixel_events, hdebug, emit, hb, written_to, clamp_eq_max, adjusted_eq_spec]

theorem info_name_ne_asc_name (b : String) : info_name b ≠ asc_name b := by
  unfold info_name asc_name
  rw [Ne, append_left_cancel_iff]
  decide

theorem mged_name_ne_asc_name (b : String) : b ++ ".mged" ≠ asc_name b := by
  unfold asc_name
  rw [Ne, append_left_cancel_iff]
  decide

theorem stdout_of_grid (o : Opts) (ds : Dataset)
    (hdebug : o.debug = false) (hb : o.basename = "") :
    stdout_of (grid_events o ds) = spec_grid o ds :=
  stdout_of_flatMap _ _ (fun i => stdout_of_scanline o ds i hdebug hb) _

theorem written_to_grid (o : Opts) (ds : Dataset)
    (hdebug : o.debug = false) (hb : o.basename ≠ "") :
    written_to (asc_name o.basename) (grid_events o ds) = spec_grid o ds :=
  written_to_flatMap _ _ _ (fun i => written_to_scanline o ds i hdebug hb) _

theorem commands_of_flatMap {α : Type} (f : α → List Event)
    (h : ∀ a, commands_of (f a) = []) (l : List α) :
    commands_of (l.flatMap f) = [] := by
  induction l with
  | nil => simp [commands_of]
  | cons a l ih => simp [List.flatMap_cons, commands_of_append, h, ih]

theorem commands_of_emit (b text : String) : commands_of [emit b text] = [] := by
  unfold emit
  split_ifs <;> simp [commands_of]

theorem commands_of_pixel (o : Opts) (ds : Dataset) (i j : Nat) :
    commands_of (pixel_events o ds i j) = [] := by
  unfold pixel_events
  simp only []
  split_ifs
  · simp [commands_of]
  · simp [commands_of]
  · exact commands_of_emit _ _

theorem commands_of_grid (o : Opts) (ds : Dataset) : commands_of (grid_events o ds) = [] := by
  unfold grid_events
  apply commands_of_flatMap
  intro i
  unfold scanline_events
  rw [commands_of_append, commands_of_flatMap _ (commands_of_pixel o ds i), commands_of_emit]
  rfl

theorem scalex_of_eq (ds : Dataset) : scalex_of ds = ⌊ds.pixel_width⌋ :=
  static_cast_int_floor _

theorem scaley_of_eq (ds : Dataset) : scaley_of ds = -⌊ds.pixel_height⌋ := by
  unfold scaley_of
  rw [static_cast_int_floor]
  ring

theorem parse_args_append (o : Opts) (pre post : List String) :
    parse_args o (pre ++ post)
      = (match parse_args o pre with
         | .ok o1 => parse_args o1 post
         | .error msg => .error msg) := by
  induction pre generalizing o with
  | nil => simp [parse_args]
  | cons a pre ih =>
    simp only [List.cons_append, parse_args]
    cases parse_arg o a with
    | ok o1 => simpa using ih o1
    | error msg => rfl

/-- With at least one argument, `main` is the argument loop followed by the rest of the
program, or the printed message and `exit(1)`. -/
theorem main_of_args (w : World) (argv0 : String) (args : List String) (h : args ≠ []) :
    main w (argv0 :: args)
      = (match parse_args {} args with
         | .error msg => { trace := [Event.out msg], status := 1 }
         | .ok o => run_opts w o) := by
  cases args with
  | nil => exact absurd rfl h
  | cons a rest => rfl

theorem commands_of_ite_out (c : Prop) [Decidable c] (text : String) :
    commands_of (if c then [Event.out text] else []) = [] := by
  split_ifs <;> simp [commands_of]

/-- Whatever `get_dataset_info` does, it issues no command. -/
theorem get_dataset_info_commands (info : Bool) (ds : Dataset) :
    (∀ t s, get_dataset_info info ds = Stage.exit t s → commands_of t = [])
      ∧ (∀ t sc, get_dataset_info info ds = Stage.next t sc → commands_of t = []) := by
  unfold get_dataset_info
  simp only []
  by_cases h1 : (!info && decide (scalex_of ds ≠ scaley_of ds)) = true
  · rw [if_pos h1]
    constructor
    · intro t s h
      cases h
      simp [commands_of_append, commands_of_ite_out, commands_of]
    · intro t sc h
      cases h
  · rw [if_neg h1]
    cases unit_check ds with
    | none =>
      constructor
      · intro t s h
        cases h
      · intro t sc h
        cases h
        simp [commands_of_append, commands_of_ite_out, commands_of]
    | some msg =>
      constructor
      · intro t s h
        cases h
        simp [commands_of_append, commands_of_ite_out, commands_of]
      · intro t sc h
        cases h

/-- A block none of whose writes goes to a file that failed to open runs to its end. -/
theorem until_null_write_ok (w : World) (l : List Event)
    (h : ∀ n t, Event.fwrite n t ∈ l → w.fopen_ok n = true) :
    until_null_write w l = (l, true) := by
  induction l with
  | nil => rfl
  | cons e es ih =>
    have hes := ih (fun n t hm => h n t (List.mem_cons_of_mem e hm))
    cases e with
    | fwrite name text =>
      have hn := h name text (List.mem_cons_self _ _)
      simp [until_null_write, hn, hes]
    | _ => simp [until_null_write, hes]

theorem commands_of_until (w : World) (l : List Event) (h : commands_of l = []) :
    commands_of (until_null_write w l).1 = [] := by
  induction l with
  | nil => rfl
  | cons e es ih =>
    cases e with
    | system cmd => simp [commands_of] at h
    | fwrite name text =>
      simp only [commands_of] at h
      simp only [until_null_write]
      split_ifs
      · simpa [commands_of] using ih h
      · rfl
    | _ =>
      simp only [commands_of] at h
      simpa [until_null_write, commands_of] using ih h

theorem gdal_opened_of_until (w : World) (l : List Event) (h : gdal_opened_of l = []) :
    gdal_opened_of (until_null_write w l).1 = [] := by
  induction l with
  | nil => rfl
  | cons e es ih =>
    cases e with
    | gdal_open path => simp [gdal_opened_of] at h
    | fwrite name text =>
      simp only [gdal_opened_of] at h
      simp only [until_null_write]
      split_ifs
      · simpa [gdal_opened_of] using ih h
      · rfl
    | _ =>
      simp only [gdal_opened_of] at h
      simpa [until_null_write, gdal_opened_of] using ih h

/-- The scanline loop writes to no file but `X.asc`. -/
theorem fwrite_mem_grid (o : Opts) (ds : Dataset) (n t : String)
    (h : Event.fwrite n t ∈ grid_events o ds) :
    o.basename ≠ "" ∧ n = asc_name o.basename := by
  have hemit : ∀ text, Event.fwrite n t = emit o.basename text →
      o.basename ≠ "" ∧ n = asc_name o.basename := by
    intro text he
    unfold emit at he
    split_ifs at he with hb
    cases he
    exact ⟨hb, rfl⟩
  unfold grid_events at h
  obtain ⟨i, _, hi⟩ := List.mem_flatMap.mp h
  unfold scanline_events at hi
  rcases List.mem_append.mp hi with hp | hnl
  · obtain ⟨j, _, hj⟩ := List.mem_flatMap.mp hp
    unfold pixel_events at hj
    simp only [] at hj
    split_ifs at hj
    · simp at hj
    · simp at hj
    · exact hemit _ (List.mem_singleton.mp hj)
  · exact hemit _ (List.mem_singleton.mp hnl)

/-- The normal-mode part of `main` writes to `X.asc`, `X.info` and `X.mged` only, and to
no file without a base name. -/
theorem fwrite_mem_normal (w : World) (o : Opts) (ds : Dataset) (sc : Scales) (n t : String)
    (h : Event.fwrite n t ∈ normal_events w o ds sc) :
    o.basename ≠ ""
      ∧ (n = o.basename ++ ".asc" ∨ n = o.basename ++ ".info" ∨ n = o.basename ++ ".mged") := by
  unfold normal_events at h
  simp only [List.mem_append] at h
  rcases h with ((((h | h) | h) | h) | h) | h
  · unfold open_outputs at h
    split_ifs at h <;> simp at h
  · split_ifs at h with hb
    · simp at h
      exact ⟨hb, Or.inr (Or.inl h.1)⟩
    · simp at h
  · exact ⟨(fwrite_mem_grid o ds n t h).1, Or.inl (fwrite_mem_grid o ds n t h).2⟩
  · simp at h
  · unfold close_outputs at h
    split_ifs at h <;> simp at h
  · split_ifs at h with hb
    · rcases List.mem_append.mp h with hp | hr
      · simp [pipeline_events] at hp
        exact ⟨hb, Or.inr (Or.inr hp.1)⟩
      · simp [report_events] at hr
    · simp at h

/-- In normal mode, with the output files open (or no base name), the run goes through
the whole of the normal-mode part and ends with status 0. -/
theorem extract_normal (w : World) (o : Opts) (ds : Dataset) (sc : Scales)
    (hinfo : o.info = false) (hfiles : o.basename ≠ "" → outputs_open w o.basename) :
    extract w o ds sc = { trace := normal_events w o ds sc, status := 0 } := by
  have hok : until_null_write w (normal_events w o ds sc)
      = (normal_events w o ds sc, true) := by
    apply until_null_write_ok
    intro n t hm
    obtain ⟨hb, hn⟩ := fwrite_mem_normal w o ds sc n t hm
    obtain ⟨h1, h2, h3⟩ := hfiles hb
    rcases hn with hn | hn | hn <;> rw [hn] <;> assumption
  unfold extract
  simp [hinfo, hok]

theorem close_outputs_open (w : World) (X : String) (hb : X ≠ "")
    (hfiles : outputs_open w X) :
    close_outputs w X = [Event.fclose (asc_name X), Event.fclose (info_name X)] := by
  obtain ⟨h1, h2, _⟩ := hfiles
  simp [close_outputs, hb, asc_name, info_name, h1, h2]

/-- A run with an empty base name issues no command, however it ends. -/
theorem run_opts_no_commands (w : World) (o : Opts) (hb : o.basename = "") :
    commands_of (run_opts w o).trace = [] := by
  unfold run_opts
  split_ifs with hf
  · simp [commands_of]
  · cases hopen : w.gdal o.ifil with
    | none => simp [commands_of]
    | some ds =>
      simp only []
      cases hload : get_dataset_info o.info ds with
      | exit t s =>
        simp [commands_of, (get_dataset_info_commands o.info ds).1 t s hload]
      | next t sc =>
        have ht := (get_dataset_info_commands o.info ds).2 t sc hload
        cases hinfo : o.info
        · have hn : commands_of (normal_events w o ds sc) = [] := by
            simp [normal_events, hb, open_outputs, close_outputs, commands_of,
              commands_of_append, commands_of_grid]
          simp [commands_of, commands_of_append, ht, extract, hinfo,
            commands_of_until w _ hn]
        · simp only [commands_of, commands_of_append, ht, extract, hinfo, hb, open_outputs,
            band_count_events, band_info_events, if_true, List.nil_append, List.append_nil,
            ne_eq, not_true_eq_false, if_false, List.cons_append]
          split_ifs <;> simp [commands_of]

/-- A flag never sets the input file: the iteration either exits or leaves `ifil`. -/
theorem parse_arg_flag_ifil (o : Opts) (a : String)
    (hflag : first_char (split_arg a).1 = '-') :
    (∃ msg, parse_arg o a = .error msg) ∨ (∃ o1, parse_arg o a = .ok o1 ∧ o1.ifil = o.ifil) := by
  unfold parse_arg
  simp only [hflag, if_true]
  split_ifs
  · exact Or.inr ⟨_, rfl, rfl⟩
  · exact Or.inr ⟨_, rfl, rfl⟩
  · exact Or.inr ⟨_, rfl, rfl⟩
  · exact Or.inl ⟨_, rfl⟩
  · exact Or.inr ⟨_, rfl, rfl⟩
  · exact Or.inr ⟨_, rfl, rfl⟩
  · exact Or.inr ⟨_, rfl, rfl⟩

/-- An argument list without an input file path leaves `ifil` empty, unless the loop
exits. -/
theorem parse_args_no_file (args : List String) :
    ∀ o : Opts, o.ifil = "" →
      (∀ a ∈ args, first_char (split_arg a).1 = '-' ∨ (split_arg a).1 = "") →
      (∃ msg, parse_args o args = .error msg)
        ∨ (∃ o1, parse_args o args = .ok o1 ∧ o1.ifil = "") := by
  induction args with
  | nil => intro o ho _; exact Or.inr ⟨o, rfl, ho⟩
  | cons a rest ih =>
    intro o ho hall
    have hrest : ∀ b ∈ rest, first_char (split_arg b).1 = '-' ∨ (split_arg b).1 = "" :=
      fun b hb => hall b (List.mem_cons_of_mem a hb)
    have hstep : (∃ msg, parse_arg o a = .error msg)
        ∨ (∃ o1, parse_arg o a = .ok o1 ∧ o1.ifil = "") := by
      by_cases hflag : first_char (split_arg a).1 = '-'
      · rcases parse_arg_flag_ifil o a hflag with h | ⟨o1, h1, h2⟩
        · exact Or.inl h
        · exact Or.inr ⟨o1, h1, h2.trans ho⟩
      · have hempty : (split_arg a).1 = "" :=
          (hall a (List.mem_cons_self a rest)).resolve_left hflag
        refine Or.inr ⟨{ o with ifil := (split_arg a).1 }, ?_, hempty⟩
        unfold parse_arg
        simp only [hflag, if_false, ho, if_true]
    rcases hstep with ⟨msg, hmsg⟩ | ⟨o1, h1, h2⟩
    · exact Or.inl ⟨msg, by simp [parse_args, hmsg]⟩
    · rcases ih o1 h2 hrest with ⟨msg, hmsg⟩ | ⟨o2, h3, h4⟩
      · exact Or.inl ⟨msg, by simp [parse_args, h1, hmsg]⟩
      · exact Or.inr ⟨o2, by simp [parse_args, h1, h3], h4⟩

/-- A positional argument after the input file was set ends the run. -/
theorem parse_arg_second_positional (o : Opts) (b : String)
    (hfile : o.ifil ≠ "") (hpos : first_char (split_arg b).1 ≠ '-') :
    parse_arg o b = .error ("ERROR:  Unknown arg '" ++ (split_arg b).1 ++ "'...exiting.\n") := by
  unfold parse_arg
  simp only [hpos, if_false, hfile]

/-- The inner loop body in debug mode, in the specification's terms. -/
theorem pixel_events_debug (o : Opts) (ds : Dataset) (i j : Nat) (hdebug : o.debug = true) :
    pixel_events o ds i j
      = (if 0 ≤ spec_adjusted o.chop o.chopel ds.adfMin (ds.scanline i j) then
           [Event.out ("pixel[" ++ fmt_d j ++ "," ++ fmt_d i ++ "] = "
             ++ fmt_d (spec_adjusted o.chop o.chopel ds.adfMin (ds.scanline i j)) ++ "\n")]
         else []) := by
  unfold pixel_events
  simp only [hdebug, if_true, adjusted_eq_spec]
  by_cases h : spec_adjusted o.chop o.chopel ds.adfMin (ds.scanline i j) < 0
  · rw [if_pos h, if_neg (not_le.mpr h)]
  · rw [if_neg h, if_pos (not_lt.mp h)]

theorem stdout_of_pixel_debug (o : Opts) (ds : Dataset) (i j : Nat)
    (hdebug : o.debug = true) :
    stdout_of (pixel_events o ds i j) = spec_debug_line o ds i j := by
  rw [pixel_events_debug o ds i j hdebug]
  unfold spec_debug_line
  split_ifs <;> simp [stdout_of]

theorem stdout_of_scanline_debug (o : Opts) (ds : Dataset) (i : Nat)
    (hdebug : o.debug = true) :
    stdout_of (scanline_events o ds i)
      = spec_debug_row o ds i ++ (if o.basename = "" then "\n" else "") := by
  unfold scanline_events spec_debug_row
  rw [stdout_of_append,
    stdout_of_flatMap _ _ (fun j => stdout_of_pixel_debug o ds i j hdebug)]
  by_cases hb : o.basename = "" <;> simp [emit, hb, stdout_of]

theorem written_to_pixel_debug (n : String) (o : Opts) (ds : Dataset) (i j : Nat)
    (hdebug : o.debug = true) :
    written_to n (pixel_events o ds i j) = "" := by
  rw [pixel_events_debug o ds i j hdebug]
  split_ifs <;> simp [written_to]

theorem concat_map_empty {α : Type} (l : List α) : concat (l.map (fun _ => "")) = "" := by
  induction l with
  | nil => rfl
  | cons a l ih =>
    show "" ++ concat (l.map (fun _ => "")) = ""
    rw [ih]
    rfl

theorem concat_replicate_map (n : Nat) (text : String) :
    concat ((List.range n).map (fun _ => text)) = concat (List.replicate n text) := by
  have h : (List.range n).map (fun _ => text) = List.replicate n text := by
    apply List.ext_getElem <;> simp
  rw [h]

theorem written_to_scanline_debug (o : Opts) (ds : Dataset) (i : Nat)
    (hdebug : o.debug = true) (hb : o.basename ≠ "") :
    written_to (asc_name o.basename) (scanline_events o ds i) = "\n" := by
  unfold scanline_events
  rw [written_to_append,
    written_to_flatMap _ _ _ (fun j => written_to_pixel_debug _ o ds i j hdebug),
    concat_map_empty]
  simp [emit, hb, written_to]

theorem stdout_of_report (X : String) : stdout_of (report_events X) = spec_report X := by
  have hfmt : fmt_d az = "35" ∧ fmt_d el = "25" := by decide
  simp only [report_events, fils, spec_report, List.map, stdout_of, concat, List.length,
    asc_name, info_name, pix_name, png_name, hfmt.1, hfmt.2, String.append_assoc,
    String.append_empty]
  rfl

theorem stdout_of_grid_debug (o : Opts) (ds : Dataset) (hdebug : o.debug = true) :
    stdout_of (grid_events o ds)
      = concat ((List.range ds.ny).map
          (fun i => spec_debug_row o ds i ++ (if o.basename = "" then "\n" else ""))) :=
  stdout_of_flatMap _ _ (fun i => stdout_of_scanline_debug o ds i hdebug) _

theorem written_to_grid_debug (o : Opts) (ds : Dataset)
    (hdebug : o.debug = true) (hb : o.basename ≠ "") :
    written_to (asc_name o.basename) (grid_events o ds)
      = concat (List.replicate ds.ny "\n") := by
  unfold grid_events
  rw [written_to_flatMap _ _ _ (fun i => written_to_scanline_debug o ds i hdebug hb),
    concat_replicate_map]

/-- An argument that starts with `-` still starts with `-` after the split at `=`. -/
theorem first_char_split (a : String) (h : first_char a = '-') :
    first_char (split_arg a).1 = '-' := by
  rcases a with ⟨l⟩
  cases l with
  | nil => exact absurd h (by decide)
  | cons c rest =>
    have hc : c = '-' := h
    subst hc
    have hne : ('-' : Char) ≠ '=' := by decide
    unfold split_arg
    simp only [find_char, hne, if_false]
    cases find_char '=' rest with
    | none => exact h
    | some k => rfl

theorem find_char_absent (c : Char) (l : List Char) (h : c ∉ l) : find_char c l = none := by
  induction l with
  | nil => rfl
  | cons x xs ih =>
    have hx : x ≠ c := fun e => h (by simp [e])
    have hxs : c ∉ xs := fun e => h (List.mem_cons_of_mem x e)
    simp [find_char, hx, ih hxs]

theorem find_char_first (c : Char) (l r : List Char) (h : c ∉ l) :
    find_char c (l ++ c :: r) = some l.length := by
  induction l with
  | nil => simp [find_char]
  | cons x xs ih =>
    have hx : x ≠ c := fun e => h (by simp [e])
    have hxs : c ∉ xs := fun e => h (List.mem_cons_of_mem x e)
    simp [find_char, hx, ih hxs]

/-- The split of `P=Q` at the first `=` when `P` holds none. -/
theorem split_arg_pair (P Q : String) (hP : '=' ∉ P.data) :
    split_arg (P ++ "=" ++ Q) = (P, Q) := by
  have hd : (P ++ "=" ++ Q).data = P.data ++ '=' :: Q.data := by
    simp [String.data_append]
  have h1 : List.take P.data.length (P.data ++ '=' :: Q.data) = P.data :=
    List.take_left _ _
  have h2 : List.drop (P.data.length + 1) (P.data ++ '=' :: Q.data) = Q.data := by
    rw [List.drop_append]
    rfl
  unfold split_arg
  rw [hd, find_char_first '=' P.data Q.data hP]
  simp only [h1, h2]

theorem split_arg_plain (P : String) (hP : '=' ∉ P.data) : split_arg P = (P, "") := by
  unfold split_arg
  rw [find_char_absent '=' P.data hP]

theorem gdal_opened_of_append (a b : List Event) :
    gdal_opened_of (a ++ b) = gdal_opened_of a ++ gdal_opened_of b := by
  induction a with
  | nil => simp [gdal_opened_of]
  | cons e es ih => cases e <;> simp [gdal_opened_of, ih]

theorem gdal_opened_of_flatMap {α : Type} (f : α → List Event)
    (h : ∀ a, gdal_opened_of (f a) = []) (l : List α) :
    gdal_opened_of (l.flatMap f) = [] := by
  induction l with
  | nil => simp [gdal_opened_of]
  | cons a l ih => simp [List.flatMap_cons, gdal_opened_of_append, h, ih]

theorem gdal_opened_of_ite_out (c : Prop) [Decidable c] (text : String) :
    gdal_opened_of (if c then [Event.out text] else []) = [] := by
  split_ifs <;> simp [gdal_opened_of]

theorem gdal_opened_of_emit (b text : String) : gdal_opened_of [emit b text] = [] := by
  unfold emit
  split_ifs <;> simp [gdal_opened_of]

theorem gdal_opened_of_pixel (o : Opts) (ds : Dataset) (i j : Nat) :
    gdal_opened_of (pixel_events o ds i j) = [] := by
  unfold pixel_events
  simp only []
  split_ifs
  · simp [gdal_opened_of]
  · simp [gdal_opened_of]
  · exact gdal_opened_of_emit _ _

theorem gdal_opened_of_grid (o : Opts) (ds : Dataset) :
    gdal_opened_of (grid_events o ds) = [] := by
  unfold grid_events
  apply gdal_opened_of_flatMap
  intro i
  unfold scanline_events
  rw [gdal_opened_of_append, gdal_opened_of_flatMap _ (gdal_opened_of_pixel o ds i),
    gdal_opened_of_emit]
  rfl

/-- Whatever `get_dataset_info` does, it opens no dataset. -/
theorem get_dataset_info_opens (info : Bool) (ds : Dataset) :
    (∀ t s, get_dataset_info info ds = Stage.exit t s → gdal_opened_of t = [])
      ∧ (∀ t sc, get_dataset_info info ds = Stage.next t sc → gdal_opened_of t = []) := by
  unfold get_dataset_info
  simp only []
  by_cases h1 : (!info && decide (scalex_of ds ≠ scaley_of ds)) = true
  · rw [if_pos h1]
    constructor
    · intro t s h
      cases h
      simp [gdal_opened_of_append, gdal_opened_of_ite_out, gdal_opened_of]
    · intro t sc h
      cases h
  · rw [if_neg h1]
    cases unit_check ds with
    | none =>
      constructor
      · intro t s h
        cases h
      · intro t sc h
        cases h
        simp [gdal_opened_of_append, gdal_opened_of_ite_out, gdal_opened_of]
    | some msg =>
      constructor
      · intro t s h
        cases h
        simp [gdal_opened_of_append, gdal_opened_of_ite_out, gdal_opened_of]
      · intro t sc h
        cases h

theorem gdal_opened_of_close (w : World) (X : String) :
    gdal_opened_of (close_outputs w X) = [] := by
  unfold close_outputs
  split_ifs <;> simp [gdal_opened_of]

theorem gdal_opened_of_extract (w : World) (o : Opts) (ds : Dataset) (sc : Scales) :
    gdal_opened_of (extract w o ds sc).trace = [] := by
  unfold extract
  cases hinfo : o.info
  · have hn : gdal_opened_of (normal_events w o ds sc) = [] := by
      by_cases hb : o.basename = ""
      · simp [normal_events, hb, open_outputs, gdal_opened_of, gdal_opened_of_append,
          gdal_opened_of_grid, gdal_opened_of_close]
      · simp [normal_events, hb, open_outputs, gdal_opened_of, gdal_opened_of_append,
          gdal_opened_of_grid, gdal_opened_of_close, pipeline_events, report_events, fils]
    simpa using gdal_opened_of_until w _ hn
  · by_cases hb : o.basename = "" <;>
      simp [hb, open_outputs, band_count_events, band_info_events, gdal_opened_of,
        gdal_opened_of_append] <;>
      split_ifs <;> simp [gdal_opened_of]

/-- A run with an input file calls `GDALOpen` exactly once, on that file. -/
theorem run_opts_opens (w : World) (o : Opts) (hf : o.ifil ≠ "") :
    gdal_opened_of (run_opts w o).trace = [o.ifil] := by
  unfold run_opts
  rw [if_neg hf]
  cases hopen : w.gdal o.ifil with
  | none => simp [gdal_opened_of]
  | some ds =>
    simp only []
    cases hload : get_dataset_info o.info ds with
    | exit t s =>
      simp [gdal_opened_of, (get_dataset_info_opens o.info ds).1 t s hload]
    | next t sc =>
      simp [gdal_opened_of, gdal_opened_of_append,
        (get_dataset_info_opens o.info ds).2 t sc hload, gdal_opened_of_extract]

/-- A positional argument is processed by its text before the first `=` alone. -/
theorem parse_arg_positional_pair (o : Opts) (P Q : String) (hP : '=' ∉ P.data)
    (hpos : first_char P ≠ '-') :
    parse_arg o (P ++ "=" ++ Q) = parse_arg o P := by
  unfold parse_arg
  simp only [split_arg_pair P Q hP, split_arg_plain P hP, hpos, if_false]

/-- Once the input file is set, the argument loop never changes it. -/
theorem parse_args_keeps_ifil (args : List String) :
    ∀ o o2 : Opts, o.ifil ≠ "" → parse_args o args = .ok o2 → o2.ifil = o.ifil := by
  induction args with
  | nil =>
    intro o o2 _ h
    simp [parse_args] at h
    rw [h]
  | cons a rest ih =>
    intro o o2 hf h
    by_cases hflag : first_char (split_arg a).1 = '-'
    · rcases parse_arg_flag_ifil o a hflag with ⟨msg, hmsg⟩ | ⟨o1, h1, h2⟩
      · simp [parse_args, hmsg] at h
      · simp only [parse_args, h1] at h
        rw [ih o1 o2 (by rw [h2]; exact hf) h, h2]
    · simp [parse_args, parse_arg_second_positional o a hf hflag] at h

/-- The commands of the pipeline block, spelled out. -/
theorem commands_of_pipeline (X : String) (nx ny : Nat) (scalex : Int) :
    commands_of (pipeline_events X nx ny scalex)
      = [ "tac " ++ X ++ ".asc" ++ " > " ++ X ++ "-reversed.asc",
          "asc2dsp " ++ X ++ "-reversed.asc" ++ " " ++ X ++ ".dsp",
          "mged -c " ++ X ++ ".g" ++ " < '" ++ X ++ ".mged" ++ "'",
          "rt -R -o " ++ X ++ "-az35-el25.pix" ++ " -s1536 -a35 -e25 "
            ++ X ++ ".g" ++ " " ++ X ++ ".r" ++ " 1>/dev/null 2>/dev/null",
          "pix-png -s1536 " ++ X ++ "-az35-el25.pix" ++ " > " ++ X ++ "-az35-el25.png" ] := by
  have hfmt : fmt_d pixsize = "1536" ∧ fmt_d az = "35" ∧ fmt_d el = "25" := by decide
  simp only [pipeline_events, commands_of, pix_name, png_name, asc_name, hfmt.1, hfmt.2.1,
    hfmt.2.2, String.append_assoc]
  rfl

/-- The commands of a normal-mode extraction with a base name and its files open are
those of the pipeline, in debug mode or not. -/
theorem commands_of_extract (w : World) (o : Opts) (ds : Dataset) (sc : Scales)
    (hinfo : o.info = false) (hb : o.basename ≠ "") (hfiles : outputs_open w o.basename) :
    commands_of (extract w o ds sc).trace
      = commands_of (pipeline_events o.basename ds.nx ds.ny sc.scalex) := by
  have hrep : commands_of (report_events o.basename) = [] := by
    simp [report_events, fils, commands_of]
  rw [extract_normal w o ds sc hinfo (fun _ => hfiles)]
  simp [normal_events, hb, open_outputs, close_outputs_open w _ hb hfiles, commands_of,
    commands_of_append, commands_of_grid, hrep]

/-- What a normal-mode extraction with a base name and its files open writes to `X.asc`
is what the scanline loop writes to it. -/
theorem written_to_asc_extract (w : World) (o : Opts) (ds : Dataset) (sc : Scales)
    (hinfo : o.info = false) (hb : o.basename ≠ "") (hfiles : outputs_open w o.basename) :
    written_to (asc_name o.basename) (extract w o ds sc).trace
      = written_to (asc_name o.basename) (grid_events o ds) := by
  rw [extract_normal w o ds sc hinfo (fun _ => hfiles)]
  simp [normal_events, hb, open_outputs, close_outputs_open w _ hb hfiles, written_to,
    written_to_append, pipeline_events, report_events, fils, info_name_ne_asc_name,
    mged_name_ne_asc_name]

/-- Standard output of a normal-mode extraction with its files open (or no base name). -/
theorem stdout_of_extract (w : World) (o : Opts) (ds : Dataset) (sc : Scales)
    (hinfo : o.info = false) (hfiles : o.basename ≠ "" → outputs_open w o.basename) :
    stdout_of (extract w o ds sc).trace
      = stdout_of (grid_events o ds)
          ++ (if o.basename ≠ "" then stdout_of (report_events o.basename) else "") := by
  rw [extract_normal w o ds sc hinfo hfiles]
  by_cases hb : o.basename = ""
  · simp [normal_events, hb, open_outputs, close_outputs, stdout_of, stdout_of_append]
  · simp [normal_events, hb, open_outputs, close_outputs_open w _ hb (hfiles hb), stdout_of,
      stdout_of_append, pipeline_events]

/-- A run in information mode issues no command, however it ends. -/
theorem run_opts_info_no_commands (w : World) (o : Opts) (hinfo : o.info = true) :
    commands_of (run_opts w o).trace = [] := by
  unfold run_opts
  split_ifs with hf
  · simp [commands_of]
  · cases hopen : w.gdal o.ifil with
    | none => simp [commands_of]
    | some ds =>
      simp only []
      cases hload : get_dataset_info o.info ds with
      | exit t s =>
        simp [commands_of, (get_dataset_info_commands o.info ds).1 t s hload]
      | next t sc =>
        have ht := (get_dataset_info_commands o.info ds).2 t sc hload
        by_cases hb : o.basename = "" <;>
          simp [commands_of, commands_of_append, ht, extract, hinfo, hb, open_outputs,
            band_count_events, band_info_events] <;>
          split_ifs <;> simp [commands_of]

theorem starts_with_iff (p s : List Char) :
    starts_with p s = true ↔ ∃ after, s = p ++ after := by
  induction p generalizing s with
  | nil => simp [starts_with]
  | cons c cs ih =>
    cases s with
    | nil => simp [starts_with]
    | cons x xs =>
      simp only [starts_with, Bool.and_eq_true, decide_eq_true_eq, ih, List.cons_append,
        List.cons.injEq]
      constructor
      · rintro ⟨hc, after, hx⟩
        exact ⟨after, hc.symm, hx⟩
      · rintro ⟨after, hc, hx⟩
        exact ⟨hc.symm, after, hx⟩

theorem has_substr_iff (p s : List Char) :
    has_substr p s = true ↔ ∃ before after, s = before ++ p ++ after := by
  induction s with
  | nil =>
    simp only [has_substr, starts_with_iff]
    constructor
    · rintro ⟨after, h⟩
      exact ⟨[], after, by simpa using h⟩
    · rintro ⟨before, after, h⟩
      have hb : before = [] := by
        cases before with
        | nil => rfl
        | cons b bs => simp at h
      subst hb
      exact ⟨after, by simpa using h⟩
  | cons x xs ih =>
    simp only [has_substr, Bool.or_eq_true, starts_with_iff, ih]
    constructor
    · rintro (⟨after, h⟩ | ⟨before, after, h⟩)
      · exact ⟨[], after, by simpa using h⟩
      · exact ⟨x :: before, after, by simp [h]⟩
    · rintro ⟨before, after, h⟩
      cases before with
      | nil => exact Or.inl ⟨after, by simpa using h⟩
      | cons b bs =>
        simp only [List.cons_append, List.cons.injEq] at h
        exact Or.inr ⟨bs, after, h.2⟩

/-- The substring test of the argument loop finds exactly the occurrences. -/
theorem found_iff_occurs (arg pat : String) : found arg pat = true ↔ spec_occurs pat arg :=
  has_substr_iff pat.data arg.data

/-- One iteration of the argument loop on a flag, given its split at `=`. -/
theorem parse_arg_flag_effect (o : Opts) (a arg val : String)
    (hs : split_arg a = (arg, val)) (hdash : arg.data.head? = some '-') :
    spec_flag_effect o arg val (parse_arg o a) := by
  have hflag : first_char arg = '-' := by
    unfold first_char
    cases hd : arg.data with
    | nil => rw [hd] at hdash; simp at hdash
    | cons c rest => rw [hd] at hdash; simpa using hdash
  have hi := found_iff_occurs arg "-i"
  have hd := found_iff_occurs arg "-d"
  have hb := found_iff_occurs arg "-b"
  have hc := found_iff_occurs arg "-c"
  unfold spec_flag_effect parse_arg
  simp only [hs, hflag, if_true]
  refine ⟨fun h1 => ?_, fun h1 h2 => ?_, fun h1 h2 h3 => ?_, fun h1 h2 h3 h4 => ?_,
    fun h1 h2 h3 h4 => ?_⟩
  · simp [hi.mpr h1]
  · simp [mt hi.mp h1, hd.mpr h2]
  · simp [mt hi.mp h1, mt hd.mp h2, hb.mpr h3]
  · refine ⟨fun hv => ?_, fun hv hge => ?_, fun hv hlt => ?_⟩
    · simp [mt hi.mp h1, mt hd.mp h2, mt hb.mp h3, hc.mpr h4, hv]
    · simp [mt hi.mp h1, mt hd.mp h2, mt hb.mp h3, hc.mpr h4, hv, not_lt.mpr hge]
    · simp [mt hi.mp h1, mt hd.mp h2, mt hb.mp h3, hc.mpr h4, hv, hlt]
  · simp [mt hi.mp h1, mt hd.mp h2, mt hb.mp h3, mt hc.mp h4]

/-- Every text either holds no `=` or is a text without `=`, an `=`, and a rest. -/
theorem first_eq_cases (l : List Char) :
    '=' ∉ l ∨ ∃ p q : List Char, l = p ++ '=' :: q ∧ '=' ∉ p := by
  induction l with
  | nil => exact Or.inl (by simp)
  | cons c cs ih =>
    by_cases hc : c = '='
    · exact Or.inr ⟨[], cs, by simp [hc], by simp⟩
    · rcases ih with h | ⟨p, q, h1, h2⟩
      · refine Or.inl ?_
        intro hm
        rcases List.mem_cons.mp hm with h3 | h3
        · exact hc h3.symm
        · exact h h3
      · refine Or.inr ⟨c :: p, q, by simp [h1], ?_⟩
        intro hm
        rcases List.mem_cons.mp hm with h3 | h3
        · exact hc h3.symm
        · exact h2 h3

/-! ## The claims -/

/-- C1: in normal (non-debug) mode the inner loop writes, for each sample, exactly one
item: a space followed by the decimal form of `max 0 (trunc s)` when chop is off and of
`max 0 (trunc s - (floor m + c))` when chop is on, `trunc` rounding toward zero and the
clamp coming after the subtraction; samples 10, 20, 5, 8 with minimum 5 and offset 3
give 2, 12, 0, 0. -/
theorem written_value_normal_mode (o : Opts) (ds : Dataset) (i j : Nat)
    (hdebug : o.debug = false) :
    pixel_events o ds i j
        = [emit o.basename (" " ++ fmt_d
            (if o.chop then max 0 (spec_trunc (ds.scanline i j) - (⌊ds.adfMin⌋ + o.chopel))
             else max 0 (spec_trunc (ds.scanline i j))))]
      ∧ (∀ (s m : ℚ) (c : Int),
          clamp (adjusted false c m s) = max 0 (spec_trunc s)
          ∧ clamp (adjusted true c m s) = max 0 (spec_trunc s - (⌊m⌋ + c)))
      ∧ [10, 20, 5, 8].map (fun s => clamp (adjusted true 3 5 s)) = [2, 12, 0, 0] := by
  have key : ∀ (s m : ℚ) (c : Int),
      clamp (adjusted false c m s) = max 0 (spec_trunc s)
      ∧ clamp (adjusted true c m s) = max 0 (spec_trunc s - (⌊m⌋ + c)) := by
    intro s m c
    constructor
    · simp [adjusted, clamp_eq_max, static_cast_int_eq]
    · show clamp (static_cast_int s - (static_cast_int (floor m) + c)) = _
      rw [static_cast_int_floor, clamp_eq_max, static_cast_int_eq]
  refine ⟨?_, key, by decide⟩
  unfold pixel_events
  simp only [hdebug, Bool.false_eq_true, if_false]
  cases hc : o.chop
  · simp [(key (ds.scanline i j) ds.adfMin o.chopel).1]
  · simp [(key (ds.scanline i j) ds.adfMin o.chopel).2]

/-- Witness of C1 on the tiny raster with `--chop=3`: the first sample, 10, is written as
the item " 2" on standard output. -/
theorem written_value_normal_mode_witness :
    ({ chop := true, chopel := 3 } : Opts).debug = false
      ∧ pixel_events { chop := true, chopel := 3 } tiny_dataset 0 0 = [Event.out " 2"] :=
  ⟨by decide,
   (written_value_normal_mode { chop := true, chopel := 3 } tiny_dataset 0 0
      (by decide)).1.trans (by decide)⟩

/-- C2: in normal (non-debug, non-information) mode, for a raster of `ny` scanlines by
`nx` samples whose output files open, the run ends with status 0 and the emitted grid
text (standard output when no base name was given, the file `X.asc` otherwise) is exactly
the `ny` newline-terminated lines of scanlines `0 .. ny-1` in that order, line `i` being,
for `j = 0 .. nx-1` in order, a space followed by the decimal form of the adjusted value
of pixel `(j, i)`: the truncated sample, less `floor(minimum) + offset` under chop, and
zero where that is negative. -/
theorem grid_text_normal_mode (w : World) (argv0 : String) (args : List String) (o : Opts)
    (ds : Dataset) (t : List Event) (sc : Scales)
    (hparse : parse_args {} args = .ok o) (hfile : o.ifil ≠ "")
    (hinfo : o.info = false) (hdebug : o.debug = false)
    (hopen : w.gdal o.ifil = some ds)
    (hload : get_dataset_info o.info ds = Stage.next t sc)
    (hfiles : o.basename ≠ "" → outputs_open w o.basename) :
    (main w (argv0 :: args)).status = 0
      ∧ (o.basename = "" → stdout_of (main w (argv0 :: args)).trace = spec_grid o ds)
      ∧ (o.basename ≠ "" →
          written_to (asc_name o.basename) (main w (argv0 :: args)).trace = spec_grid o ds) := by
  rw [main_of_parse w argv0 args o hparse hfile, run_opts_loaded w o ds t sc hfile hopen hload]
  rw [hinfo] at hload
  have ht := get_dataset_info_normal_trace ds t sc hload
  subst ht
  refine ⟨by rw [extract_normal w o ds sc hinfo hfiles], ?_, ?_⟩
  · intro hb
    simp only [List.nil_append, stdout_of]
    rw [stdout_of_extract w o ds sc hinfo hfiles, stdout_of_grid o ds hdebug hb]
    simp [hb]
  · intro hb
    simp only [List.nil_append, written_to]
    rw [written_to_asc_extract w o ds sc hinfo hb (hfiles hb), written_to_grid o ds hdebug hb]

/-- Witness of C2: the tiny raster, run without options, prints one row per scanline, and
with `--chop=3`, where two adjusted values are negative, the rows ` 2 12` and ` 0 0`. -/
theorem grid_text_normal_mode_witness :
    parse_args {} ["in.ddf"] = .ok { ifil := "in.ddf" }
      ∧ get_dataset_info false tiny_dataset
          = Stage.next [] { scalex := 30, scaley := 30, scalez := 1 }
      ∧ stdout_of (main tiny_world ["sdtsdem2asc", "in.ddf"]).trace = " 10 20\n 5 8\n"
      ∧ spec_grid { ifil := "in.ddf", chop := true, chopel := 3 } tiny_dataset
          = " 2 12\n 0 0\n" :=
  ⟨by decide, by decide,
   ((grid_text_normal_mode tiny_world "sdtsdem2asc" ["in.ddf"] { ifil := "in.ddf" }
      tiny_dataset [] { scalex := 30, scaley := 30, scalez := 1 }
      (by decide) (by decide) (by decide) (by decide) rfl (by decide)
      (fun h => absurd rfl h)).2.1
      (by decide)).trans (by decide),
   by decide⟩

/-- C3 (the code at the failing input): an argument `--name=X` matches none of the
substrings the argument loop looks for, so it changes no option: the base name stays
empty, and on the tiny raster the grid goes to standard output, no file is opened and no
command is issued. -/
theorem name_flag_sets_nothing :
    (∀ (o : Opts) (X : String), parse_arg o ("--name=" ++ X) = .ok o)
      ∧ parse_args {} ["in.ddf", "--name=out"] = .ok { ifil := "in.ddf", basename := "" }
      ∧ main tiny_world ["sdtsdem2asc", "in.ddf", "--name=out"]
          = main tiny_world ["sdtsdem2asc", "in.ddf"]
      ∧ opened_of (main tiny_world ["sdtsdem2asc", "in.ddf", "--name=out"]).trace = []
      ∧ commands_of (main tiny_world ["sdtsdem2asc", "in.ddf", "--name=out"]).trace = [] := by
  refine ⟨?_, by decide, by decide, by decide, by decide⟩
  intro o X
  have hs : split_arg ("--name=" ++ X) = ("--name", X) := by
    have hd : ("--name=" ++ X).data = '-' :: '-' :: 'n' :: 'a' :: 'm' :: 'e' :: '=' :: X.data := rfl
    simp [split_arg, hd, find_char]
  have h0 : first_char "--name" = '-' := by decide
  have h1 : found "--name" "-i" = false := by decide
  have h2 : found "--name" "-d" = false := by decide
  have h3 : found "--name" "-b" = false := by decide
  have h4 : found "--name" "-c" = false := by decide
  simp [parse_arg, hs, h0, h1, h2, h3, h4]

/-- C4 (counterexample): with `--info` and the base name `out` the run on the tiny raster
has a non-empty base name and yet issues no command. -/
theorem pipeline_info_counterexample :
    parse_args {} ["in.ddf", "--info", "-b=out"]
        = .ok { info := true, ifil := "in.ddf", basename := "out" }
      ∧ commands_of (main tiny_world ["sdtsdem2asc", "in.ddf", "--info", "-b=out"]).trace
          = [] :=
  ⟨by decide, by decide⟩

/-- C4 (amended): a run with an empty base name, or in information mode, issues no
external command, however it goes on and ends.  A run with a non-empty base name `X` that
is not in information mode, whose dataset opens and loads and whose files `X.asc`,
`X.info` and `X.mged` open, issues exactly the five commands of the pipeline, in order,
all of them after `X.asc` was written and closed, and whatever `system` returns for any
of them. -/
theorem pipeline_commands (gdal : String → Option Dataset) (res : String → Int)
    (ok : String → Bool) (argv0 : String) (args : List String) (o : Opts)
    (hparse : parse_args {} args = .ok o) :
    (o.basename = "" ∨ o.info = true →
        commands_of
          (main { gdal := gdal, system_result := res, fopen_ok := ok } (argv0 :: args)).trace
          = [])
      ∧ (∀ (ds : Dataset) (t : List Event) (sc : Scales),
          o.basename ≠ "" → o.ifil ≠ "" → o.info = false → gdal o.ifil = some ds →
          get_dataset_info o.info ds = Stage.next t sc →
          (ok (o.basename ++ ".asc") = true ∧ ok (o.basename ++ ".info") = true
            ∧ ok (o.basename ++ ".mged") = true) →
          commands_of
            (main { gdal := gdal, system_result := res, fopen_ok := ok } (argv0 :: args)).trace
            = [ "tac " ++ o.basename ++ ".asc" ++ " > " ++ o.basename ++ "-reversed.asc",
                "asc2dsp " ++ o.basename ++ "-reversed.asc" ++ " " ++ o.basename ++ ".dsp",
                "mged -c " ++ o.basename ++ ".g" ++ " < '" ++ o.basename ++ ".mged" ++ "'",
                "rt -R -o " ++ o.basename ++ "-az35-el25.pix" ++ " -s1536 -a35 -e25 "
                  ++ o.basename ++ ".g" ++ " " ++ o.basename ++ ".r"
                  ++ " 1>/dev/null 2>/dev/null",
                "pix-png -s1536 " ++ o.basename ++ "-az35-el25.pix" ++ " > "
                  ++ o.basename ++ "-az35-el25.png" ]
          ∧ ∃ pre post,
              (main { gdal := gdal, system_result := res, fopen_ok := ok }
                (argv0 :: args)).trace = pre ++ post
              ∧ commands_of pre = []
              ∧ Event.fclose (asc_name o.basename) ∈ pre
              ∧ written_to (asc_name o.basename) post = ""
              ∧ commands_of post
                  = commands_of
                      (main { gdal := gdal, system_result := res, fopen_ok := ok }
                        (argv0 :: args)).trace) := by
  constructor
  · intro hcase
    cases args with
    | nil => simp [main, commands_of]
    | cons a rest =>
      rw [main_of_args _ argv0 _ (by simp), hparse]
      rcases hcase with hb | hinfo
      · exact run_opts_no_commands _ o hb
      · exact run_opts_info_no_commands _ o hinfo
  intro ds t sc hb hfile hinfo hopen hload hok
  have hfiles : outputs_open { gdal := gdal, system_result := res, fopen_ok := ok }
      o.basename := hok
  rw [main_of_parse _ argv0 args o hparse hfile]
  rw [run_opts_loaded { gdal := gdal, system_result := res, fopen_ok := ok } o ds t sc hfile
    hopen hload]
  rw [hinfo] at hload
  have ht := get_dataset_info_normal_trace ds t sc hload
  subst ht
  have hrep : commands_of (report_events o.basename) = [] := by
    simp [report_events, fils, commands_of]
  have hall : commands_of
      (Event.gdal_open o.ifil :: ([] ++ (extract
        { gdal := gdal, system_result := res, fopen_ok := ok } o ds sc).trace))
        = commands_of (pipeline_events o.basename ds.nx ds.ny sc.scalex) := by
    simp only [List.nil_append, commands_of]
    exact commands_of_extract _ o ds sc hinfo hb hfiles
  refine ⟨hall.trans (commands_of_pipeline _ _ _ _), ?_⟩
  refine ⟨Event.gdal_open o.ifil :: (open_outputs o.basename
      ++ [Event.fwrite (info_name o.basename) (pixels_line ds sc)]
      ++ grid_events o ds ++ [Event.gdal_close]
      ++ [Event.fclose (asc_name o.basename), Event.fclose (info_name o.basename)]),
    pipeline_events o.basename ds.nx ds.ny sc.scalex ++ report_events o.basename,
    ?_, ?_, ?_, ?_, ?_⟩
  · rw [extract_normal _ o ds sc hinfo (fun _ => hfiles)]
    simp [normal_events, hb, close_outputs_open _ _ hb hfiles]
  · simp [hb, open_outputs, commands_of, commands_of_append, commands_of_grid]
  · simp
  · simp [written_to, written_to_append, pipeline_events, report_events, fils,
      mged_name_ne_asc_name]
  · rw [hall, commands_of_append, hrep, List.append_nil]

/-- Witness of C4 (amended): on the tiny raster with base name `out` and every file
opening the five commands are issued in order, here with every command returning 1. -/
theorem pipeline_commands_witness :
    parse_args {} ["in.ddf", "-b=out"] = .ok { ifil := "in.ddf", basename := "out" }
      ∧ commands_of
          (main { gdal := tiny_world.gdal, system_result := fun _ => 1,
                  fopen_ok := fun _ => true }
            ["sdtsdem2asc", "in.ddf", "-b=out"]).trace
        = [ "tac out.asc > out-reversed.asc",
            "asc2dsp out-reversed.asc out.dsp",
            "mged -c out.g < 'out.mged'",
            "rt -R -o out-az35-el25.pix -s1536 -a35 -e25 out.g out.r 1>/dev/null 2>/dev/null",
            "pix-png -s1536 out-az35-el25.pix > out-az35-el25.png" ] :=
  ⟨by decide,
   ((pipeline_commands tiny_world.gdal (fun _ => 1) (fun _ => true) "sdtsdem2asc"
      ["in.ddf", "-b=out"] { ifil := "in.ddf", basename := "out" } (by decide)).2
      tiny_dataset [] { scalex := 30, scaley := 30, scalez := 1 }
      (by decide) (by decide) (by decide) rfl (by decide) ⟨rfl, rfl, rfl⟩).1.trans
    (by decide)⟩

/-- C5: a run that is not in information mode and opens a dataset whose integer cell
scales differ (the floor of the pixel width is not the negated floor of the pixel height)
consists of the `GDALOpen` call and the `FATAL` message only and ends with exit status 1:
no output file is opened, nothing is written to a file, no grid row is printed and no
command is issued. -/
theorem nonsquare_cells_abort (w : World) (argv0 : String) (args : List String) (o : Opts)
    (ds : Dataset)
    (hparse : parse_args {} args = .ok o) (hfile : o.ifil ≠ "") (hinfo : o.info = false)
    (hopen : w.gdal o.ifil = some ds)
    (hscale : ⌊ds.pixel_width⌋ ≠ -⌊ds.pixel_height⌋) :
    main w (argv0 :: args)
        = { trace := [Event.gdal_open o.ifil,
              Event.out ("FATAL: cell scale x (" ++ fmt_d ⌊ds.pixel_width⌋
                ++ ") != cell scale y (" ++ fmt_d (-⌊ds.pixel_height⌋) ++ ")\n")],
            status := 1 }
      ∧ (main w (argv0 :: args)).status = 1
      ∧ opened_of (main w (argv0 :: args)).trace = []
      ∧ commands_of (main w (argv0 :: args)).trace = []
      ∧ (∀ name, written_to name (main w (argv0 :: args)).trace = "")
      ∧ stdout_of (main w (argv0 :: args)).trace
          = "FATAL: cell scale x (" ++ fmt_d ⌊ds.pixel_width⌋
              ++ ") != cell scale y (" ++ fmt_d (-⌊ds.pixel_height⌋) ++ ")\n" := by
  have hrun : main w (argv0 :: args)
      = { trace := [Event.gdal_open o.ifil,
            Event.out ("FATAL: cell scale x (" ++ fmt_d ⌊ds.pixel_width⌋
              ++ ") != cell scale y (" ++ fmt_d (-⌊ds.pixel_height⌋) ++ ")\n")],
          status := 1 } := by
    rw [main_of_parse w argv0 args o hparse hfile]
    have hg : get_dataset_info o.info ds
        = Stage.exit [Event.out ("FATAL: cell scale x (" ++ fmt_d ⌊ds.pixel_width⌋
            ++ ") != cell scale y (" ++ fmt_d (-⌊ds.pixel_height⌋) ++ ")\n")] 1 := by
      unfold get_dataset_info
      simp [hinfo, scalex_of_eq, scaley_of_eq]
      intro h
      exact absurd h hscale
    simp [run_opts, hfile, hopen, hg]
  rw [hrun]
  refine ⟨rfl, rfl, rfl, rfl, fun name => rfl, ?_⟩
  simp [stdout_of]

/-- Witness of C5: a 30 m by 10 m cell grid in normal mode. -/
theorem nonsquare_cells_abort_witness :
    parse_args {} ["in.ddf"] = .ok { ifil := "in.ddf" }
      ∧ ⌊(30 : ℚ)⌋ ≠ -⌊(-10 : ℚ)⌋
      ∧ (main { gdal := fun _ => some { tiny_dataset with pixel_height := -10 },
                system_result := fun _ => 0 } ["sdtsdem2asc", "in.ddf"]).status = 1 :=
  ⟨by decide, by decide,
   (nonsquare_cells_abort
      { gdal := fun _ => some { tiny_dataset with pixel_height := -10 },
        system_result := fun _ => 0 }
      "sdtsdem2asc" ["in.ddf"] { ifil := "in.ddf" }
      { tiny_dataset with pixel_height := -10 }
      (by decide) (by decide) (by decide) rfl (by decide)).2.1⟩

/-- C6 (the code at the failing input): for square cells of pixel width `w` and pixel
height `-w` the comparison of `get_dataset_info` passes exactly when `w` is an integer,
because `scaley` is the negated floor of `-w`, the ceiling of `w`.  Square cells of
30.5 m give `scalex = 30`, `scaley = 31` and the run is aborted with exit status 1. -/
theorem square_noninteger_cells_rejected :
    (∀ ds : Dataset,
        scalex_of { ds with pixel_height := -ds.pixel_width }
            = scaley_of { ds with pixel_height := -ds.pixel_width }
          ↔ ((⌊ds.pixel_width⌋ : Int) : ℚ) = ds.pixel_width)
      ∧ (0 : ℚ) < half_metre_dataset.pixel_width
      ∧ half_metre_dataset.pixel_height = -half_metre_dataset.pixel_width
      ∧ scalex_of half_metre_dataset = 30
      ∧ scaley_of half_metre_dataset = 31
      ∧ main (world_of half_metre_dataset) ["sdtsdem2asc", "in.ddf"]
          = { trace := [Event.gdal_open "in.ddf",
                Event.out "FATAL: cell scale x (30) != cell scale y (31)\n"],
              status := 1 } := by
  refine ⟨?_, by decide, by decide, by decide, by decide, by decide⟩
  intro ds
  rw [scalex_of_eq, scaley_of_eq]
  show ⌊ds.pixel_width⌋ = -⌊-ds.pixel_width⌋ ↔ _
  rw [Int.floor_neg, neg_neg]
  constructor
  · intro h
    have h1 : ((⌊ds.pixel_width⌋ : Int) : ℚ) ≤ ds.pixel_width := Int.floor_le _
    have h2 : ds.pixel_width ≤ ((⌈ds.pixel_width⌉ : Int) : ℚ) := Int.le_ceil _
    rw [← h] at h2
    exact le_antisymm h1 h2
  · intro h
    rw [← h, Int.floor_intCast, Int.ceil_intCast]

/-- C7 (counterexample): in normal mode a dataset whose projection has unit `Meter` with
multiplier 1 but whose cells are 30 m by 10 m makes the loader terminate with exit
status 1, although neither side of the claimed equivalence's unit condition holds. -/
theorem unit_equivalence_counterexample :
    oblong_dataset.projection = some { unit_name := "Meter", unit_value := "1" }
      ∧ get_dataset_info false oblong_dataset
          = Stage.exit [Event.out "FATAL: cell scale x (30) != cell scale y (10)\n"] 1
      ∧ ¬(("Meter" : String) ≠ "Meter" ∨ atoi "1" ≠ 1) :=
  ⟨rfl, by decide, by decide⟩

/-- C7 (amended): for every dataset that has a projection reference and passes the
cell-scale validation (information mode, or equal integer cell scales), the loader
terminates with exit status 1 if and only if the UNIT name is not exactly `Meter` or the
integer value (`atoi`) of the UNIT multiplier is not 1; when it does not abort it
returns with z scale 1. -/
theorem unit_check_decides (info : Bool) (ds : Dataset) (p : Projection)
    (hp : ds.projection = some p)
    (hs : info = true ∨ ⌊ds.pixel_width⌋ = -⌊ds.pixel_height⌋) :
    ((∃ t, get_dataset_info info ds = Stage.exit t 1)
        ↔ (p.unit_name ≠ "Meter" ∨ atoi p.unit_value ≠ 1))
      ∧ (¬(p.unit_name ≠ "Meter" ∨ atoi p.unit_value ≠ 1) →
          ∃ t, get_dataset_info info ds
            = Stage.next t
                { scalex := ⌊ds.pixel_width⌋, scaley := -⌊ds.pixel_height⌋, scalez := 1 }) := by
  have hskip : (!info && decide (scalex_of ds ≠ scaley_of ds)) = false := by
    rcases hs with h | h
    · simp [h]
    · simp [scalex_of_eq, scaley_of_eq, h]
  by_cases hbad : p.unit_name ≠ "Meter" ∨ atoi p.unit_value ≠ 1
  · have hu : ∃ msg, unit_check ds = some msg := by
      unfold unit_check
      rw [hp]
      simp only []
      split_ifs with h1 h2
      · exact ⟨_, rfl⟩
      · exact ⟨_, rfl⟩
      · exact absurd (hbad.resolve_left h1) h2
    obtain ⟨msg, hmsg⟩ := hu
    refine ⟨⟨fun _ => hbad, fun _ => ?_⟩, fun h => absurd hbad h⟩
    refine ⟨(if ds.geo_ok && info then [Event.out ds.geo_text] else [])
      ++ [Event.out msg], ?_⟩
    unfold get_dataset_info
    simp only [hskip, hmsg, Bool.false_eq_true, if_false]
  · have hu : unit_check ds = none := by
      unfold unit_check
      rw [hp]
      push_neg at hbad
      simp [hbad.1, hbad.2]
    have hnext : get_dataset_info info ds
        = Stage.next
            ((if ds.geo_ok && info then [Event.out ds.geo_text] else [])
              ++ (if info then [Event.out ds.listing_text] else []))
            { scalex := ⌊ds.pixel_width⌋, scaley := -⌊ds.pixel_height⌋, scalez := 1 } := by
      unfold get_dataset_info
      simp only [hskip, hu, Bool.false_eq_true, if_false]
      rw [scalex_of_eq, scaley_of_eq]
    refine ⟨⟨fun ⟨t, ht⟩ => ?_, fun h => absurd h hbad⟩, fun _ => ⟨_, hnext⟩⟩
    rw [hnext] at ht
    cases ht

/-- Witness of C7 (amended): in information mode the tiny raster with unit `Foot` makes
the loader exit with status 1. -/
theorem unit_check_decides_witness :
    foot_dataset.projection = some { unit_name := "Foot", unit_value := "1" }
      ∧ ∃ t, get_dataset_info true foot_dataset = Stage.exit t 1 :=
  ⟨rfl,
   (unit_check_decides true foot_dataset { unit_name := "Foot", unit_value := "1" } rfl
      (Or.inl rfl)).1.mpr (Or.inl (by decide))⟩

/-- C8 (counterexample): with `--info` and a base name (`-b=out`) the run on the tiny
raster ends with status 0 but has opened, hence created, `out.asc` and `out.info`. -/
theorem info_mode_counterexample :
    parse_args {} ["in.ddf", "--info", "-b=out"]
        = .ok { info := true, ifil := "in.ddf", basename := "out" }
      ∧ (main tiny_world ["sdtsdem2asc", "in.ddf", "--info", "-b=out"]).status = 0
      ∧ opened_of (main tiny_world ["sdtsdem2asc", "in.ddf", "--info", "-b=out"]).trace
          = ["out.asc", "out.info"] :=
  ⟨by decide, by decide, by decide⟩

/-- C8 (amended): for every dataset that opens and passes the unit check, and every
combination of the other options, a run with `--info` ends with exit status 0, writes
nothing to any file and issues no pipeline command; the only files it opens are `X.asc`
and `X.info` when a base name `X` was supplied, and none otherwise. -/
theorem info_mode_run (w : World) (argv0 : String) (args : List String) (o : Opts)
    (ds : Dataset)
    (hparse : parse_args {} args = .ok o) (hfile : o.ifil ≠ "") (hinfo : o.info = true)
    (hopen : w.gdal o.ifil = some ds) (hunit : unit_check ds = none) :
    (main w (argv0 :: args)).status = 0
      ∧ commands_of (main w (argv0 :: args)).trace = []
      ∧ (∀ name, written_to name (main w (argv0 :: args)).trace = "")
      ∧ opened_of (main w (argv0 :: args)).trace
          = (if o.basename = "" then [] else [asc_name o.basename, info_name o.basename]) := by
  have hload : get_dataset_info o.info ds
      = Stage.next
          ((if ds.geo_ok && true then [Event.out ds.geo_text] else [])
            ++ [Event.out ds.listing_text])
          { scalex := scalex_of ds, scaley := scaley_of ds, scalez := 1 } := by
    unfold get_dataset_info
    simp [hinfo, hunit]
  rw [main_of_parse w argv0 args o hparse hfile, run_opts_loaded w o ds _ _ hfile hopen hload]
  refine ⟨by simp [extract, hinfo], ?_, ?_, ?_⟩
  · by_cases hb : o.basename = "" <;> cases hg : ds.geo_ok <;>
      simp [extract, hinfo, hb, hg, open_outputs, band_count_events, band_info_events,
        commands_of, commands_of_append] <;>
      split_ifs <;> simp [commands_of]
  · intro name
    by_cases hb : o.basename = "" <;> cases hg : ds.geo_ok <;>
      simp [extract, hinfo, hb, hg, open_outputs, band_count_events, band_info_events,
        written_to, written_to_append] <;>
      split_ifs <;> simp [written_to]
  · by_cases hb : o.basename = "" <;> cases hg : ds.geo_ok <;>
      simp [extract, hinfo, hb, hg, open_outputs, band_count_events, band_info_events,
        opened_of, opened_of_append] <;>
      split_ifs <;> simp [opened_of]

/-- Witness of C8 (amended): `--info` on the tiny raster without a base name. -/
theorem info_mode_run_witness :
    parse_args {} ["in.ddf", "--info"] = .ok { info := true, ifil := "in.ddf" }
      ∧ unit_check tiny_dataset = none
      ∧ (main tiny_world ["sdtsdem2asc", "in.ddf", "--info"]).status = 0
      ∧ opened_of (main tiny_world ["sdtsdem2asc", "in.ddf", "--info"]).trace = [] :=
  ⟨by decide, by decide,
   (info_mode_run tiny_world "sdtsdem2asc" ["in.ddf", "--info"]
      { info := true, ifil := "in.ddf" } tiny_dataset
      (by decide) (by decide) (by decide) rfl (by decide)).1,
   (info_mode_run tiny_world "sdtsdem2asc" ["in.ddf", "--info"]
      { info := true, ifil := "in.ddf" } tiny_dataset
      (by decide) (by decide) (by decide) rfl (by decide)).2.2.2⟩

/-- C10 (counterexample): `--foo` is none of the documented flags, yet the run on the
tiny raster is the run without it: exit status 0 and the grid on standard output. -/
theorem unknown_flag_counterexample :
    main tiny_world ["sdtsdem2asc", "in.ddf", "--foo"]
        = main tiny_world ["sdtsdem2asc", "in.ddf"]
      ∧ (main tiny_world ["sdtsdem2asc", "in.ddf", "--foo"]).status = 0
      ∧ stdout_of (main tiny_world ["sdtsdem2asc", "in.ddf", "--foo"]).trace
          = " 10 20\n 5 8\n" :=
  ⟨by decide, by decide, by decide⟩

/-- C10 (amended): an argument that starts with `-` and whose text before the first `=`
contains none of `-i`, `-d`, `-b`, `-c` is ignored: the argument loop leaves every option
as it is, prints nothing and does not exit, so that, next to at least one other
argument, the run is the run without it. -/
theorem unknown_flag_ignored (w : World) (argv0 a : String) (before after : List String)
    (hflag : first_char (split_arg a).1 = '-')
    (hi : found (split_arg a).1 "-i" = false) (hd : found (split_arg a).1 "-d" = false)
    (hb : found (split_arg a).1 "-b" = false) (hc : found (split_arg a).1 "-c" = false)
    (hrest : before ++ after ≠ []) :
    (∀ o : Opts, parse_arg o a = .ok o)
      ∧ (∀ o : Opts, parse_args o (before ++ a :: after) = parse_args o (before ++ after))
      ∧ main w (argv0 :: (before ++ a :: after)) = main w (argv0 :: (before ++ after)) := by
  have hstep : ∀ o : Opts, parse_arg o a = .ok o := by
    intro o
    simp [parse_arg, hflag, hi, hd, hb, hc]
  have hloop : ∀ o : Opts,
      parse_args o (before ++ a :: after) = parse_args o (before ++ after) := by
    intro o
    rw [parse_args_append, parse_args_append]
    cases parse_args o before with
    | ok o1 => simp [parse_args, hstep]
    | error msg => rfl
  refine ⟨hstep, hloop, ?_⟩
  rw [main_of_args w argv0 _ (by simp), main_of_args w argv0 _ hrest, hloop]

/-- Witness of C10 (amended): `--foo` after the input file of the tiny raster. -/
theorem unknown_flag_ignored_witness :
    first_char (split_arg "--foo").1 = '-'
      ∧ main tiny_world ("sdtsdem2asc" :: (["in.ddf"] ++ "--foo" :: []))
          = main tiny_world ("sdtsdem2asc" :: (["in.ddf"] ++ [])) :=
  ⟨by decide,
   (unknown_flag_ignored tiny_world "sdtsdem2asc" "--foo" ["in.ddf"] []
      (by decide) (by decide) (by decide) (by decide) (by decide) (by decide)).2.2⟩

/-- C11: an argument list that supplies no input file path (no argument at all, or only
arguments that are flags or whose text before the first `=` is empty) ends the run with
exit status 1 before any dataset is opened; and a positional argument reached after the
input file was set ends the run with exit status 1 and the `Unknown arg` message, again
before any dataset is opened. -/
theorem missing_or_extra_input (w : World) (argv0 : String) :
    (main w [argv0]).status = 1 ∧ gdal_opened_of (main w [argv0]).trace = []
      ∧ (∀ args : List String,
          (∀ a ∈ args, first_char (split_arg a).1 = '-' ∨ (split_arg a).1 = "") →
          (main w (argv0 :: args)).status = 1
            ∧ gdal_opened_of (main w (argv0 :: args)).trace = [])
      ∧ (∀ (before after : List String) (b : String) (o : Opts),
          parse_args {} before = .ok o → o.ifil ≠ "" →
          first_char (split_arg b).1 ≠ '-' →
          main w (argv0 :: (before ++ b :: after))
            = { trace := [Event.out
                  ("ERROR:  Unknown arg '" ++ (split_arg b).1 ++ "'...exiting.\n")],
                status := 1 }) := by
  refine ⟨rfl, rfl, ?_, ?_⟩
  · intro args hall
    cases args with
    | nil => exact ⟨rfl, rfl⟩
    | cons a rest =>
      rw [main_of_args w argv0 _ (by simp)]
      rcases parse_args_no_file (a :: rest) {} rfl hall with ⟨msg, hmsg⟩ | ⟨o1, h1, h2⟩
      · rw [hmsg]
        exact ⟨rfl, rfl⟩
      · rw [h1]
        simp [run_opts, h2, gdal_opened_of]
  · intro before after b o hpre hfile hpos
    rw [main_of_args w argv0 _ (by simp), parse_args_append, hpre]
    simp [parse_args, parse_arg_second_positional o b hfile hpos]

/-- Witness of C11: flags only, an argument with an empty text before `=`, and a second
positional argument, each on the tiny raster. -/
theorem missing_or_extra_input_witness :
    (main tiny_world ["sdtsdem2asc", "--debug", "=x", ""]).status = 1
      ∧ gdal_opened_of (main tiny_world ["sdtsdem2asc", "--debug", "=x", ""]).trace = []
      ∧ main tiny_world ("sdtsdem2asc" :: (["in.ddf"] ++ "other" :: []))
          = { trace := [Event.out "ERROR:  Unknown arg 'other'...exiting.\n"], status := 1 } :=
  ⟨((missing_or_extra_input tiny_world "sdtsdem2asc").2.2.1 ["--debug", "=x", ""]
      (by decide)).1,
   ((missing_or_extra_input tiny_world "sdtsdem2asc").2.2.1 ["--debug", "=x", ""]
      (by decide)).2,
   (missing_or_extra_input tiny_world "sdtsdem2asc").2.2.2 ["in.ddf"] [] "other"
      { ifil := "in.ddf" } (by decide) (by decide) (by decide)⟩

/-- C12 (the code at the failing input): with chop on, the code subtracts
`floor(minimum) + X`, so a sample equal to an integer minimum `m` has the adjusted value
`-X` and is written as `max 0 (-X)`, which is 0 for every `X >= 1`, where the usage text
promises `X`; a sample `s` is written as `max 0 (trunc s - (m + X))`, which for `s >= m`
is `2 * X` less than the documented `trunc s - (m - X)`, clamped at zero.  With minimum 5
and `--chop=3` the samples 10, 20, 5, 8 are written as 2, 12, 0, 0, where the documented
values are 8, 18, 3, 6. -/
theorem chop_base_level_above_minimum :
    (∀ (m X : Int), clamp (adjusted true X (m : ℚ) (m : ℚ)) = max 0 (-X))
      ∧ (∀ (m X : Int) (s : ℚ),
          clamp (adjusted true X (m : ℚ) s) = max 0 (documented_chop X m s - 2 * X))
      ∧ clamp (adjusted true 3 5 5) = 0
      ∧ documented_chop 3 5 5 = 3
      ∧ [10, 20, 5, 8].map (fun s => clamp (adjusted true 3 5 s)) = [2, 12, 0, 0]
      ∧ [10, 20, 5, 8].map (documented_chop 3 5) = [8, 18, 3, 6]
      ∧ stdout_of (main tiny_world ["sdtsdem2asc", "in.ddf", "--chop=3"]).trace
          = " 2 12\n 0 0\n" := by
  have hval : ∀ (m X : Int) (s : ℚ),
      clamp (adjusted true X (m : ℚ) s) = max 0 (spec_trunc s - (m + X)) := by
    intro m X s
    rw [clamp_eq_max, adjusted_eq_spec]
    simp [spec_adjusted]
  have htr : ∀ m : Int, spec_trunc (m : ℚ) = m := by
    intro m
    unfold spec_trunc
    split_ifs <;> simp
  have hdoc : documented_chop 3 5 5 = 3
      ∧ [10, 20, 5, 8].map (documented_chop 3 5) = [8, 18, 3, 6] := by
    have h10 := htr 10
    have h20 := htr 20
    have h5 := htr 5
    have h8 := htr 8
    simp only [Int.cast_ofNat] at h10 h20 h5 h8
    simp [documented_chop, h10, h20, h5, h8]
  refine ⟨?_, ?_, by decide, hdoc.1, by decide, hdoc.2, by decide⟩
  · intro m X
    rw [hval, htr]
    congr 1
    ring
  · intro m X s
    rw [hval]
    unfold documented_chop
    congr 1
    ring

/-- C13 (counterexample): in debug mode with base name `out` the tiny raster's standard
output holds the four pixel lines and then the closing report of nine more lines, so it
is not the pixel lines alone. -/
theorem debug_stdout_counterexample :
    parse_args {} ["in.ddf", "--debug", "-b=out"]
        = .ok { debug := true, ifil := "in.ddf", basename := "out" }
      ∧ Event.out "Normal end.  See files:\n"
          ∈ (main tiny_world ["sdtsdem2asc", "in.ddf", "--debug", "-b=out"]).trace
      ∧ stdout_of (main tiny_world ["sdtsdem2asc", "in.ddf", "--debug", "-b=out"]).trace
          ≠ "pixel[0,0] = 10\npixel[1,0] = 20\npixel[0,1] = 5\npixel[1,1] = 8\n" :=
  ⟨by decide, by decide, by decide⟩

/-- C13 (amended): in debug mode, for every raster, chop setting and pixel (column `j`,
row `i`), the inner loop prints the line `pixel[j,i] = p` to standard output if and only
if the adjusted value `p` (truncated sample, less `floor(minimum) + offset` when chop is
on) is not negative, and the printed `p` is that unclamped value.  With a base name whose
output files open, standard output is these lines in scanline order then column order,
followed only by the closing report of the file names; without a base name it is these
lines with one newline after each scanline. -/
theorem debug_lines (w : World) (argv0 : String) (args : List String) (o : Opts)
    (ds : Dataset) (t : List Event) (sc : Scales)
    (hparse : parse_args {} args = .ok o) (hfile : o.ifil ≠ "")
    (hinfo : o.info = false) (hdebug : o.debug = true)
    (hopen : w.gdal o.ifil = some ds)
    (hload : get_dataset_info o.info ds = Stage.next t sc)
    (hfiles : o.basename ≠ "" → outputs_open w o.basename) :
    (∀ i j : Nat,
        pixel_events o ds i j
          = (if 0 ≤ spec_adjusted o.chop o.chopel ds.adfMin (ds.scanline i j) then
               [Event.out ("pixel[" ++ fmt_d j ++ "," ++ fmt_d i ++ "] = "
                 ++ fmt_d (spec_adjusted o.chop o.chopel ds.adfMin (ds.scanline i j))
                 ++ "\n")]
             else []))
      ∧ (o.basename ≠ "" →
          stdout_of (main w (argv0 :: args)).trace
            = concat ((List.range ds.ny).map (spec_debug_row o ds))
                ++ spec_report o.basename)
      ∧ (o.basename = "" →
          stdout_of (main w (argv0 :: args)).trace
            = concat ((List.range ds.ny).map (fun i => spec_debug_row o ds i ++ "\n"))) := by
  have hrun : stdout_of (main w (argv0 :: args)).trace
      = stdout_of (grid_events o ds)
          ++ (if o.basename ≠ "" then stdout_of (report_events o.basename) else "") := by
    rw [main_of_parse w argv0 args o hparse hfile,
      run_opts_loaded w o ds t sc hfile hopen hload]
    rw [hinfo] at hload
    have ht := get_dataset_info_normal_trace ds t sc hload
    subst ht
    simp only [List.nil_append, stdout_of]
    exact stdout_of_extract w o ds sc hinfo hfiles
  have hgrid := stdout_of_grid_debug o ds hdebug
  refine ⟨fun i j => pixel_events_debug o ds i j hdebug, ?_, ?_⟩
  · intro hb
    simp only [hb, if_false, String.append_empty] at hgrid
    rw [hrun, hgrid, if_pos hb, stdout_of_report]
  · intro hb
    simp only [hb, if_true] at hgrid
    rw [hrun, hgrid]
    simp [hb]

/-- Witness of C13 (amended): the tiny raster in debug mode without a base name. -/
theorem debug_lines_witness :
    parse_args {} ["in.ddf", "--debug"] = .ok { debug := true, ifil := "in.ddf" }
      ∧ stdout_of (main tiny_world ["sdtsdem2asc", "in.ddf", "--debug"]).trace
          = concat ((List.range 2).map
              (fun i => spec_debug_row { debug := true, ifil := "in.ddf" } tiny_dataset i
                ++ "\n")) :=
  ⟨by decide,
   (debug_lines tiny_world "sdtsdem2asc" ["in.ddf", "--debug"]
      { debug := true, ifil := "in.ddf" } tiny_dataset []
      { scalex := 30, scaley := 30, scalez := 1 }
      (by decide) (by decide) (by decide) (by decide) rfl (by decide)
      (fun h => absurd rfl h)).2.2 (by decide)⟩

/-- C14 (counterexample): with `--debug --chop=5` the first sample of the tiny raster,
10 with minimum 5, has the adjusted value 0 and the line `pixel[0,0] = 0` is printed. -/
theorem debug_zero_counterexample :
    adjusted true 5 5 10 = 0
      ∧ pixel_events { debug := true, chop := true, chopel := 5 } tiny_dataset 0 0
          = [Event.out "pixel[0,0] = 0\n"]
      ∧ stdout_of (main tiny_world ["sdtsdem2asc", "in.ddf", "--debug", "--chop=5"]).trace
          = "pixel[0,0] = 0\npixel[1,0] = 10\n\n\n" :=
  ⟨by decide, by decide, by decide⟩

/-- C14 (amended): `--debug` prints the pixels whose adjusted value is not negative: for
every raster and chop setting a pixel whose adjusted value is zero does produce the line
`pixel[j,i] = 0`, a pixel with a positive adjusted value produces its line, and only a
pixel with a negative adjusted value produces none. -/
theorem debug_prints_zero (o : Opts) (ds : Dataset) (i j : Nat) (hdebug : o.debug = true) :
    (adjusted o.chop o.chopel ds.adfMin (ds.scanline i j) = 0 →
        pixel_events o ds i j
          = [Event.out ("pixel[" ++ fmt_d j ++ "," ++ fmt_d i ++ "] = 0\n")])
      ∧ (0 < adjusted o.chop o.chopel ds.adfMin (ds.scanline i j) →
        pixel_events o ds i j
          = [Event.out ("pixel[" ++ fmt_d j ++ "," ++ fmt_d i ++ "] = "
              ++ fmt_d (adjusted o.chop o.chopel ds.adfMin (ds.scanline i j)) ++ "\n")])
      ∧ (adjusted o.chop o.chopel ds.adfMin (ds.scanline i j) < 0 →
        pixel_events o ds i j = []) := by
  have h := pixel_events_debug o ds i j hdebug
  rw [← adjusted_eq_spec] at h
  refine ⟨fun hz => ?_, fun hp => ?_, fun hn => ?_⟩
  · have h0 : fmt_d 0 = "0" := by decide
    rw [h, hz, if_pos (le_refl 0), h0]
    simp only [String.append_assoc]
    rfl
  · rw [h, if_pos (le_of_lt hp)]
  · rw [h, if_neg (not_le.mpr hn)]

/-- Witness of C14 (amended): the first sample of the tiny raster with chop offset 5. -/
theorem debug_prints_zero_witness :
    adjusted true 5 tiny_dataset.adfMin (tiny_dataset.scanline 0 0) = 0
      ∧ pixel_events { debug := true, chop := true, chopel := 5 } tiny_dataset 0 0
          = [Event.out ("pixel[" ++ fmt_d (0 : Nat) ++ "," ++ fmt_d (0 : Nat) ++ "] = 0\n")] :=
  ⟨by decide,
   (debug_prints_zero { debug := true, chop := true, chopel := 5 } tiny_dataset 0 0
      (by decide)).1 (by decide)⟩

/-- C15: flags are recognised by substring, in a fixed priority.  Every argument is a
text `P` without `=`, alone or followed by `=` and a text `Q`.  For every such argument
that starts with `-`, one iteration of the argument loop looks at `P` only: it sets `info`
if `P` contains `-i`; otherwise sets `debug` if `P` contains `-d`; otherwise sets the base
name to `Q` (empty without `=`) if `P` contains `-b`; otherwise, if `P` contains `-c`,
enables chop (reading the offset from a non-empty `Q`, or exiting when it is below 1);
otherwise changes nothing.  So `--chop-depth=3` sets debug and leaves chop off,
`--basename-info=X` sets info and leaves the base name unchanged, and a flag letter after
the `=`, as in `--name=-i`, is not looked at. -/
theorem flag_priority (o : Opts) (P Q : String) (hP : '=' ∉ P.data)
    (hdash : P.data.head? = some '-') :
    spec_flag_effect o P "" (parse_arg o P)
      ∧ spec_flag_effect o P Q (parse_arg o (P ++ "=" ++ Q))
      ∧ (∀ a : String, '=' ∉ a.data
          ∨ ∃ P1 Q1 : String, a = P1 ++ "=" ++ Q1 ∧ '=' ∉ P1.data)
      ∧ (∀ o1 : Opts, parse_arg o1 "--chop-depth=3" = .ok { o1 with debug := true })
      ∧ (∀ o1 : Opts, parse_arg o1 "--basename-info=X" = .ok { o1 with info := true })
      ∧ (∀ o1 : Opts, parse_arg o1 "--name=-i" = .ok o1)
      ∧ (∀ o1 : Opts, parse_arg o1 "-b=--info" = .ok { o1 with basename := "--info" })
      ∧ parse_args {} ["--chop-depth=3"] = .ok { debug := true, chop := false }
      ∧ parse_args {} ["--basename-info=X"] = .ok { info := true, basename := "" }
      ∧ parse_args {} ["--name=-i", "--foo=-d", "-x=-c"] = .ok {} := by
  refine ⟨parse_arg_flag_effect o P P "" (split_arg_plain P hP) hdash,
    parse_arg_flag_effect o (P ++ "=" ++ Q) P Q (split_arg_pair P Q hP) hdash,
    ?_, ?_, ?_, ?_, ?_, by decide, by decide, by decide⟩
  · intro a
    rcases first_eq_cases a.data with h | ⟨p, q, h1, h2⟩
    · exact Or.inl h
    · refine Or.inr ⟨String.mk p, String.mk q, ?_, h2⟩
      apply String.ext
      simpa [String.data_append] using h1
  · intro o1
    have hs : split_arg "--chop-depth=3" = ("--chop-depth", "3") := by decide
    have h0 : first_char "--chop-depth" = '-' := by decide
    have h1 : found "--chop-depth" "-i" = false := by decide
    have h2 : found "--chop-depth" "-d" = true := by decide
    simp [parse_arg, hs, h0, h1, h2]
  · intro o1
    have hs : split_arg "--basename-info=X" = ("--basename-info", "X") := by decide
    have h0 : first_char "--basename-info" = '-' := by decide
    have h1 : found "--basename-info" "-i" = true := by decide
    simp [parse_arg, hs, h0, h1]
  · intro o1
    have hs : split_arg "--name=-i" = ("--name", "-i") := by decide
    have h0 : first_char "--name" = '-' := by decide
    have h1 : found "--name" "-i" = false := by decide
    have h2 : found "--name" "-d" = false := by decide
    have h3 : found "--name" "-b" = false := by decide
    have h4 : found "--name" "-c" = false := by decide
    simp [parse_arg, hs, h0, h1, h2, h3, h4]
  · intro o1
    have hs : split_arg "-b=--info" = ("-b", "--info") := by decide
    have h0 : first_char "-b" = '-' := by decide
    have h1 : found "-b" "-i" = false := by decide
    have h2 : found "-b" "-d" = false := by decide
    have h3 : found "-b" "-b" = true := by decide
    simp [parse_arg, hs, h0, h1, h2, h3]

/-- Witness of C15: `-b=out` contains `-b` and none of `-i`, `-d`, so it sets the base
name to the text after the `=`. -/
theorem flag_priority_witness :
    '=' ∉ ("-b" : String).data ∧ ("-b" : String).data.head? = some '-'
      ∧ parse_arg {} ("-b" ++ "=" ++ "out") = .ok { basename := "out" } :=
  ⟨by decide, by decide,
   (flag_priority {} "-b" "out" (by decide) (by decide)).2.1.2.2.1
      (mt (found_iff_occurs "-b" "-i").mpr (by decide))
      (mt (found_iff_occurs "-b" "-d").mpr (by decide))
      ((found_iff_occurs "-b" "-b").mp (by decide))⟩

/-- C16: every argument is split at its first `=` before it is classified, positional
arguments included.  For a positional argument `P=Q` (`P` holds no `=` and does not start
with `-`) the loop works on `P` alone and `Q` is discarded: the run is the run with the
argument `P`; as the first positional argument, with `P` not empty, it sets the input
file to `P`, and the one path the program passes to `GDALOpen` is `P`. -/
theorem positional_split_at_equals (P Q : String) (hP : '=' ∉ P.data)
    (hpos : first_char P ≠ '-') :
    split_arg (P ++ "=" ++ Q) = (P, Q)
      ∧ (∀ o : Opts, parse_arg o (P ++ "=" ++ Q) = parse_arg o P)
      ∧ (∀ o : Opts, o.ifil = "" → parse_arg o (P ++ "=" ++ Q) = .ok { o with ifil := P })
      ∧ (∀ (w : World) (argv0 : String) (before after : List String),
          main w (argv0 :: (before ++ (P ++ "=" ++ Q) :: after))
            = main w (argv0 :: (before ++ P :: after)))
      ∧ (∀ (w : World) (argv0 : String) (before after : List String) (o o2 : Opts),
          P ≠ "" → parse_args {} before = .ok o → o.ifil = "" →
          parse_args {} (before ++ (P ++ "=" ++ Q) :: after) = .ok o2 →
          o2.ifil = P
            ∧ gdal_opened_of (main w (argv0 :: (before ++ (P ++ "=" ++ Q) :: after))).trace
                = [P]) := by
  have hstep : ∀ o : Opts, parse_arg o (P ++ "=" ++ Q) = parse_arg o P :=
    fun o => parse_arg_positional_pair o P Q hP hpos
  have hset : ∀ o : Opts, o.ifil = "" →
      parse_arg o (P ++ "=" ++ Q) = .ok { o with ifil := P } := by
    intro o ho
    rw [hstep]
    unfold parse_arg
    simp only [split_arg_plain P hP, hpos, if_false, ho, if_true]
  refine ⟨split_arg_pair P Q hP, hstep, hset, ?_, ?_⟩
  · intro w argv0 before after
    rw [main_of_args w argv0 _ (by simp), main_of_args w argv0 _ (by simp),
      parse_args_append, parse_args_append]
    cases parse_args {} before with
    | ok o1 => simp only [parse_args, hstep]
    | error msg => rfl
  · intro w argv0 before after o o2 hne hbefore ho hall
    have hifil : o2.ifil = P := by
      rw [parse_args_append, hbefore] at hall
      simp only [parse_args, hset o ho] at hall
      exact parse_args_keeps_ifil after { o with ifil := P } o2 hne hall
    refine ⟨hifil, ?_⟩
    rw [main_of_parse w argv0 _ o2 hall (by rw [hifil]; exact hne),
      run_opts_opens w o2 (by rw [hifil]; exact hne), hifil]

/-- Witness of C16: `in.ddf=junk` opens `in.ddf` and runs as `in.ddf` does. -/
theorem positional_split_at_equals_witness :
    '=' ∉ ("in.ddf" : String).data ∧ first_char "in.ddf" ≠ '-'
      ∧ main tiny_world ("sdtsdem2asc" :: ([] ++ ("in.ddf" ++ "=" ++ "junk") :: []))
          = main tiny_world ("sdtsdem2asc" :: ([] ++ "in.ddf" :: []))
      ∧ gdal_opened_of
          (main tiny_world ("sdtsdem2asc" :: ([] ++ ("in.ddf" ++ "=" ++ "junk") :: []))).trace
          = ["in.ddf"] :=
  ⟨by decide, by decide,
   (positional_split_at_equals "in.ddf" "junk" (by decide) (by decide)).2.2.2.1
      tiny_world "sdtsdem2asc" [] [],
   ((positional_split_at_equals "in.ddf" "junk" (by decide) (by decide)).2.2.2.2
      tiny_world "sdtsdem2asc" [] [] {} { ifil := "in.ddf" }
      (by decide) (by decide) (by decide) (by decide)).2⟩

/-- C17: for every raster of `ny` scanlines, when debug mode and a non-empty base name
`X` are both in effect, a normal-mode run whose output files open writes to `X.asc`
exactly `ny` newlines, that is `ny` empty lines: no pixel item is written to it, the
pixel lines going to standard output; and the five pipeline commands are still issued,
the first on that file. -/
theorem debug_grid_file_empty_lines (w : World) (argv0 : String) (args : List String)
    (o : Opts) (ds : Dataset) (t : List Event) (sc : Scales)
    (hparse : parse_args {} args = .ok o) (hfile : o.ifil ≠ "")
    (hinfo : o.info = false) (hdebug : o.debug = true) (hb : o.basename ≠ "")
    (hopen : w.gdal o.ifil = some ds)
    (hload : get_dataset_info o.info ds = Stage.next t sc)
    (hfiles : outputs_open w o.basename) :
    written_to (asc_name o.basename) (main w (argv0 :: args)).trace
        = concat (List.replicate ds.ny "\n")
      ∧ (∀ i j : Nat, written_to (asc_name o.basename) (pixel_events o ds i j) = "")
      ∧ (∀ i j : Nat, stdout_of (pixel_events o ds i j) = spec_debug_line o ds i j)
      ∧ commands_of (main w (argv0 :: args)).trace
          = [ "tac " ++ o.basename ++ ".asc" ++ " > " ++ o.basename ++ "-reversed.asc",
              "asc2dsp " ++ o.basename ++ "-reversed.asc" ++ " " ++ o.basename ++ ".dsp",
              "mged -c " ++ o.basename ++ ".g" ++ " < '" ++ o.basename ++ ".mged" ++ "'",
              "rt -R -o " ++ o.basename ++ "-az35-el25.pix" ++ " -s1536 -a35 -e25 "
                ++ o.basename ++ ".g" ++ " " ++ o.basename ++ ".r"
                ++ " 1>/dev/null 2>/dev/null",
              "pix-png -s1536 " ++ o.basename ++ "-az35-el25.pix" ++ " > "
                ++ o.basename ++ "-az35-el25.png" ] := by
  rw [main_of_parse w argv0 args o hparse hfile,
    run_opts_loaded w o ds t sc hfile hopen hload]
  rw [hinfo] at hload
  have ht := get_dataset_info_normal_trace ds t sc hload
  subst ht
  refine ⟨?_, fun i j => written_to_pixel_debug _ o ds i j hdebug,
    fun i j => stdout_of_pixel_debug o ds i j hdebug, ?_⟩
  · simp only [List.nil_append, written_to]
    rw [written_to_asc_extract w o ds sc hinfo hb hfiles,
      written_to_grid_debug o ds hdebug hb]
  · simp only [List.nil_append, commands_of]
    rw [commands_of_extract w o ds sc hinfo hb hfiles, commands_of_pipeline]

/-- Witness of C17: the tiny raster in debug mode with base name `out`: `out.asc` holds
two empty lines. -/
theorem debug_grid_file_empty_lines_witness :
    parse_args {} ["in.ddf", "--debug", "-b=out"]
        = .ok { debug := true, ifil := "in.ddf", basename := "out" }
      ∧ outputs_open tiny_world "out"
      ∧ written_to "out.asc"
          (main tiny_world ["sdtsdem2asc", "in.ddf", "--debug", "-b=out"]).trace = "\n\n" :=
  ⟨by decide, ⟨rfl, rfl, rfl⟩,
   (debug_grid_file_empty_lines tiny_world "sdtsdem2asc" ["in.ddf", "--debug", "-b=out"]
      { debug := true, ifil := "in.ddf", basename := "out" } tiny_dataset []
      { scalex := 30, scaley := 30, scalez := 1 }
      (by decide) (by decide) (by decide) (by decide) (by decide) rfl (by decide)
      ⟨rfl, rfl, rfl⟩).1.trans
    (by decide)⟩

end Sdtsdem2asc
